import Mathlib

/-!
# Finance tracker client (`script.js`): a shallow embedding and its checked properties

The browser script is embedded function by function.  DOM reads and writes become
explicit arguments and results, the page state that the handlers touch becomes a
record that is passed along, and the replies of the remote service are inputs of
the handlers that await them.
-/

namespace FinanceTracker

/-! ## Category detection (`autoDetectCategory`) -/

/-- Substring test on character lists: `kw` occurs in the list at some position. -/
def includesChars : List Char → List Char → Bool
  | [], kw => kw.isEmpty
  | c :: cs, kw => kw.isPrefixOf (c :: cs) || includesChars cs kw

/-- `String.prototype.includes`: `s.includes(kw)`. -/
def includes (s kw : String) : Bool := includesChars s.data kw.data

/-- The object literal `categoryKeywords`, in the order of its keys (all keys are
non-numeric strings, so `Object.entries` lists them in the order written). -/
def categoryKeywords : List (String × List String) :=
  [ ("groceries", ["food", "grocery", "supermarket", "market", "fresh", "organic", "produce"]),
    ("transportation", ["uber", "lyft", "taxi", "gas", "fuel", "parking", "metro", "bus", "train"]),
    ("entertainment", ["movie", "theater", "concert", "game", "netflix", "spotify", "amazon prime"]),
    ("utilities", ["electric", "water", "gas", "internet", "phone", "cable", "wifi"]),
    ("shopping", ["amazon", "walmart", "target", "clothing", "shoes", "electronics"]),
    ("dining", ["restaurant", "cafe", "coffee", "pizza", "burger", "sushi", "dinner", "lunch"]),
    ("healthcare", ["pharmacy", "doctor", "medical", "dental", "vision", "insurance"]),
    ("education", ["book", "course", "tuition", "school", "college", "university"]),
    ("travel", ["hotel", "flight", "airbnb", "vacation", "trip", "booking"]) ]

/-- The test `keywords.some(keyword => descriptionLower.includes(keyword))`. -/
def someKeyword (descriptionLower : String) (keywords : List String) : Bool :=
  keywords.any (fun keyword => includes descriptionLower keyword)

/-- The `for (const [category, keywords] of Object.entries(...))` loop with its
`break`: `detected` is the value of `detectedCategory` when the loop is entered. -/
def detectLoop (descriptionLower : String) :
    List (String × List String) → String → String
  | [], detected => detected
  | (category, keywords) :: rest, detected =>
    if someKeyword descriptionLower keywords then category
    else detectLoop descriptionLower rest detected

/-- The value that `autoDetectCategory` writes into the category input, as a
function of the text of the description input.  `toLowerCase` stands for
`String.prototype.toLowerCase`, which is taken as a parameter (the host
implements the full Unicode mapping); a string is truthy exactly when it is
not empty. -/
def autoDetectCategory (toLowerCase : String → String) (description : String) : String :=
  if description ≠ "" then
    let descriptionLower := toLowerCase description
    detectLoop descriptionLower categoryKeywords "other"
  else
    ""

/-- Lower-casing of the letters `A`-`Z`, every other character unchanged: what
`toLowerCase` does on a string of ASCII characters. -/
def asciiLower (s : String) : String := ⟨s.data.map Char.toLower⟩

/-! ## Dashboard charts (`updateCategoryChart`, `updateMonthlyChart`, `generateColors`) -/

/-- A transaction record as the service returns it; amounts are exact rationals. -/
structure Transaction where
  id : Nat
  description : String
  amount : ℚ
  type : String
  category : String
  date : String

/-- One element of `data.categories`: `{category, amount}`. -/
structure CategoryEntry where
  category : String
  amount : ℚ

/-- The array literal `colors` of `generateColors`. -/
def colors : List String :=
  [ "#FF6384", "#36A2EB", "#FFCE56", "#4BC0C0",
    "#9966FF", "#FF9F40", "#FF6384", "#C9CBCF",
    "#4BC0C0", "#FF6384", "#36A2EB", "#FFCE56" ]

/-- The element `colors[i % colors.length]`. -/
def colorAt (i : Nat) : String :=
  colors.get ⟨i % colors.length, Nat.mod_lt i (by decide)⟩

/-- The `for (let i = 0; i < count; i++)` loop of `generateColors`: the first
argument is the number of iterations still to run (`count - i`), `i` is the loop
counter and `result` the array built so far. -/
def generateColorsLoop : Nat → Nat → List String → List String
  | 0, _, result => result
  | remaining + 1, i, result =>
    generateColorsLoop remaining (i + 1) (result ++ [colorAt i])

/-- `generateColors(count)` for a count that is a length (a natural number). -/
def generateColors (count : Nat) : List String :=
  generateColorsLoop count 0 []

/-- What `updateCategoryChart` hands to the chart constructor. -/
structure CategoryChart where
  labels : List String
  data : List ℚ
  colors : List String

/-- `updateCategoryChart(categories)`: `ctx` tells whether the element
`category-chart` exists; without it the function returns before building
anything (`none`). -/
def updateCategoryChart (ctx : Bool) (categories : List CategoryEntry) : Option CategoryChart :=
  if !ctx then none
  else
    let labels := categories.map (fun cat => cat.category)
    let data := categories.map (fun cat => cat.amount)
    let colors := generateColors labels.length
    some { labels := labels, data := data, colors := colors }

/-- Modelled from the spec: the service-side derivation of
`AnalyticsSummary.categories` from the transactions is not part of the script.
The spec gives one `(category, amount)` element per category; this predicate
says that `categories` is such a summary of `transactions`: the category names
are pairwise different, they are exactly the categories that occur among the
transactions, and each amount is the sum of the amounts of the transactions of
that category. -/
def IsCategorySummary (transactions : List Transaction) (categories : List CategoryEntry) : Prop :=
  (categories.map (fun cat => cat.category)).Nodup ∧
  (∀ t ∈ transactions, t.category ∈ categories.map (fun cat => cat.category)) ∧
  (∀ cat ∈ categories, cat.category ∈ transactions.map (fun t => t.category)) ∧
  (∀ cat ∈ categories,
    cat.amount =
      ((transactions.filter (fun t => t.category = cat.category)).map (fun t => t.amount)).sum)

instance (transactions : List Transaction) (categories : List CategoryEntry) :
    Decidable (IsCategorySummary transactions categories) := by
  unfold IsCategorySummary
  infer_instance

/-- One date bucket of `groupedData`: `{ income, expense }`. -/
structure Bucket where
  income : ℚ
  expense : ℚ

/-- The own properties of the object `groupedData`, in order of creation. -/
abbrev Grouped := List (String × Bucket)

/-- Whether `groupedData` has an own property `key`. -/
def hasOwn (groupedData : Grouped) (key : String) : Bool :=
  groupedData.any (fun e => e.1 == key)

/-- The own property `key` of `groupedData`, when there is one. -/
def getOwn (groupedData : Grouped) (key : String) : Option Bucket :=
  (groupedData.find? (fun e => e.1 == key)).map Prod.snd

/-- In-place update of the bucket stored under `key` (no own property: the
object's own properties are unchanged). -/
def updateOwn (groupedData : Grouped) (key : String) (f : Bucket → Bucket) : Grouped :=
  groupedData.map (fun e => if e.1 == key then (e.1, f e.2) else e)

/-- The names that an object literal inherits with a truthy value from
`Object.prototype` in an unmodified host; for such a name `groupedData[name]`
is truthy although `groupedData` has no own property of that name. -/
def objectPrototypeNames : List String :=
  [ "constructor", "__defineGetter__", "__defineSetter__", "hasOwnProperty",
    "__lookupGetter__", "__lookupSetter__", "isPrototypeOf", "propertyIsEnumerable",
    "toString", "valueOf", "__proto__", "toLocaleString" ]

/-- Membership in `objectPrototypeNames`. -/
def inheritedName (key : String) : Bool := objectPrototypeNames.contains key

/-- The body of `transactions.forEach(transaction => ...)` in `updateMonthlyChart`.
`inherited` tells which names resolve to a truthy value along the prototype
chain of `groupedData`.  A bucket object is always truthy, so
`!groupedData[date]` holds exactly when there is neither an own nor an
inherited property `date`; when the name is only inherited the `+=` lands on the
inherited object and `groupedData` gets no own property. -/
def groupStep (inherited : String → Bool) (groupedData : Grouped) (transaction : Transaction) :
    Grouped :=
  let date := transaction.date
  let groupedData₁ :=
    if !(hasOwn groupedData date || inherited date) then
      groupedData ++ [(date, { income := 0, expense := 0 })]
    else groupedData
  if transaction.type = "income" then
    updateOwn groupedData₁ date (fun b => { b with income := b.income + transaction.amount })
  else
    updateOwn groupedData₁ date (fun b => { b with expense := b.expense + transaction.amount })

/-- The UTF-16 code units of a character. -/
def utf16 (c : Char) : List Nat :=
  if c.toNat < 65536 then [c.toNat]
  else [55296 + (c.toNat - 65536) / 1024, 56320 + (c.toNat - 65536) % 1024]

/-- A string as JavaScript sees it: its sequence of UTF-16 code units (strings
with unpaired surrogates are not represented). -/
def codeUnits (s : String) : List Nat := s.data.flatMap utf16

/-- Lexicographic comparison of two sequences of code units. -/
def unitsLt : List Nat → List Nat → Bool
  | [], [] => false
  | [], _ :: _ => true
  | _ :: _, [] => false
  | a :: as, b :: bs => decide (a < b) || (a == b && unitsLt as bs)

/-- The order `a < b` of JavaScript strings, which `Array.prototype.sort` uses
when it is called without a comparison function. -/
def jsLt (a b : String) : Bool := unitsLt (codeUnits a) (codeUnits b)

/-- The order `a <= b` of JavaScript strings. -/
def jsLe (a b : String) : Bool := !jsLt b a

/-- `keys.sort()` on an array of strings, as a stable insertion sort. -/
def sortKeys (keys : List String) : List String :=
  keys.insertionSort (fun a b => jsLe a b = true)

/-- The array `dates.map(date => f(groupedData[date]))`; `none` stands for the
`TypeError` of reading a field of `undefined` when `date` is no property. -/
def seriesOf (groupedData : Grouped) (f : Bucket → ℚ) : List String → Option (List ℚ)
  | [] => some []
  | date :: rest =>
    match getOwn groupedData date, seriesOf groupedData f rest with
    | some b, some vs => some (f b :: vs)
    | _, _ => none

/-- What `updateMonthlyChart` hands to the chart constructor. -/
structure MonthlyChart where
  labels : List String
  incomeData : List ℚ
  expenseData : List ℚ

/-- `updateMonthlyChart(transactions)`: `ctx` tells whether the element
`monthly-chart` exists (without it the function returns at once); `none` is
returned when no chart is built. -/
def updateMonthlyChart (ctx : Bool) (inherited : String → Bool) (transactions : List Transaction) :
    Option MonthlyChart :=
  if !ctx then none
  else
    let groupedData := transactions.foldl (groupStep inherited) []
    let dates := sortKeys (groupedData.map Prod.fst)
    match seriesOf groupedData (fun b => b.income) dates,
        seriesOf groupedData (fun b => b.expense) dates with
    | some incomeData, some expenseData =>
      some { labels := dates, incomeData := incomeData, expenseData := expenseData }
    | _, _ => none

/-- The sum of the amounts of the transactions dated `d` whose type is `income`. -/
def incomeTotalOn (transactions : List Transaction) (d : String) : ℚ :=
  ((transactions.filter (fun t => t.date = d ∧ t.type = "income")).map (fun t => t.amount)).sum

/-- The sum of the amounts of the transactions dated `d` whose type is not
`income`. -/
def otherTotalOn (transactions : List Transaction) (d : String) : ℚ :=
  ((transactions.filter (fun t => t.date = d ∧ t.type ≠ "income")).map (fun t => t.amount)).sum

/-- The object `groupedData` holds the per-date totals of `transactions`: one
own property per date that occurs, whose bucket carries the two totals of that
date. -/
def GroupedFor (groupedData : Grouped) (transactions : List Transaction) : Prop :=
  (groupedData.map Prod.fst).Nodup ∧
  (∀ d, d ∈ groupedData.map Prod.fst ↔ ∃ t ∈ transactions, t.date = d) ∧
  (∀ d b, (d, b) ∈ groupedData →
    b.income = incomeTotalOn transactions d ∧ b.expense = otherTotalOn transactions d)

/-- Three transactions on two dates and in two categories, used to instantiate
the statements about the charts. -/
def exampleTransactions : List Transaction :=
  [ { id := 1, description := "lunch", amount := 7, type := "expense",
      category := "dining", date := "2024-01-03" },
    { id := 2, description := "salary", amount := 40, type := "income",
      category := "salary", date := "2024-01-02" },
    { id := 3, description := "coffee", amount := 5, type := "expense",
      category := "dining", date := "2024-01-03" } ]

/-- Three transactions on two dates, one of them with a type that is neither
`income` nor `expense`. -/
def exampleTypedTransactions : List Transaction :=
  [ { id := 4, description := "salary", amount := 40, type := "income",
      category := "salary", date := "2024-02-01" },
    { id := 5, description := "returned shoes", amount := 15, type := "refund",
      category := "shopping", date := "2024-02-01" },
    { id := 6, description := "bus", amount := 3, type := "expense",
      category := "transportation", date := "2024-01-31" } ]

/-- The category summary of `exampleTransactions`. -/
def exampleCategories : List CategoryEntry :=
  [ { category := "dining", amount := 12 }, { category := "salary", amount := 40 } ]

/-! ## Session, views and notifications -/

/-- The body of a successful `/login` or `/register` reply. -/
structure AuthData where
  token : String
  user_id : String
  username : String
deriving DecidableEq

/-- The value of the global `currentUser` when it is not `null`; `user_id` and
`username` are `none` when they were read from a storage that lacks them. -/
structure Session where
  token : String
  user_id : Option String
  username : Option String
deriving DecidableEq

/-- The reply awaited by `handleLogin` and `handleRegister`: a reply with
`response.ok`, a reply without it carrying `data.error`, or no usable reply
(`fetch` or `response.json()` threw). -/
inductive AuthResponse where
  | ok (data : AuthData)
  | rejected (error : String)
  | failed

/-- The entries of `localStorage`. -/
abbrev Storage := List (String × String)

/-- `localStorage.getItem(key)`; `none` is `null`. -/
def getItem (storage : Storage) (key : String) : Option String :=
  (storage.find? (fun e => e.1 == key)).map Prod.snd

/-- `localStorage.removeItem(key)`. -/
def removeItem (storage : Storage) (key : String) : Storage :=
  storage.filter (fun e => !(e.1 == key))

/-- `localStorage.setItem(key, value)`. -/
def setItem (storage : Storage) (key value : String) : Storage :=
  removeItem storage key ++ [(key, value)]

/-- The four elements of class `page`, by their ids `dashboard`, `transactions`,
`add-transaction`, `upload-csv`. -/
inductive Page where
  | dashboard
  | transactions
  | addTransaction
  | uploadCsv
deriving DecidableEq

/-- The elements of class `nav-item`, by their ids `nav-dashboard`,
`nav-transactions`, `nav-add`, `nav-upload`, `nav-logout`. -/
inductive NavItem where
  | navDashboard
  | navTransactions
  | navAdd
  | navUpload
  | navLogout
deriving DecidableEq

/-- All pages, in document order. -/
def allPages : List Page := [Page.dashboard, Page.transactions, Page.addTransaction, Page.uploadCsv]

/-- The notification element and the pending `setTimeout` callbacks that will
call `hideNotification`: `timers` lists the times (in milliseconds) at which
they are due. -/
structure NotificationState where
  message : String
  className : String
  hidden : Bool
  timers : List Nat

/-- The part of the page state that the handlers read and write. -/
structure AppState where
  /-- the current time in milliseconds -/
  now : Nat
  currentUser : Option Session
  localStorage : Storage
  /-- `authSection.classList` contains `hidden` -/
  authHidden : Bool
  /-- `appSection.classList` contains `hidden` -/
  appHidden : Bool
  /-- `loadingOverlay.classList` contains `hidden` -/
  loadingHidden : Bool
  /-- the class list of the page contains `active` -/
  pageActive : Page → Bool
  /-- the class list of the navigation item contains `active` -/
  navActive : NavItem → Bool
  notification : NotificationState
  /-- the endpoints requested from the service so far -/
  requests : List String

/-- `showAuth()`. -/
def showAuth (s : AppState) : AppState :=
  { s with authHidden := false, appHidden := true }

/-- `showApp()`. -/
def showApp (s : AppState) : AppState :=
  { s with authHidden := true, appHidden := false }

/-- `showLoading()`. -/
def showLoading (s : AppState) : AppState :=
  { s with loadingHidden := false }

/-- `hideLoading()`. -/
def hideLoading (s : AppState) : AppState :=
  { s with loadingHidden := true }

/-- `showNotification(message, type)`: sets the text, replaces the class string
by the one without `hidden`, and registers a callback due in 5000 ms.  No
callback registered earlier is cancelled. -/
def showNotification (message type : String) (s : AppState) : AppState :=
  { s with notification :=
      { message := message
        className := "notification " ++ type
        hidden := false
        timers := s.notification.timers ++ [s.now + 5000] } }

/-- `hideNotification()`, also the click handler of the close button. -/
def hideNotification (s : AppState) : AppState :=
  { s with notification := { s.notification with hidden := true } }

/-- The passage of time up to `t`: every pending callback due by then runs
(each one calls `hideNotification`) and is no longer pending. -/
def advanceTo (t : Nat) (s : AppState) : AppState :=
  let due := s.notification.timers.filter (fun d => decide (d ≤ t))
  let pending := s.notification.timers.filter (fun d => !decide (d ≤ t))
  let s₁ : AppState := { s with now := max s.now t,
                                notification := { s.notification with timers := pending } }
  if due.isEmpty then s₁ else hideNotification s₁

/-- The synchronous part of `loadDashboard()`: the request for `/analytics` is
issued with the token of `currentUser`; when `currentUser` is `null` building
the request throws and the `catch` reports it.  The reply is handled later and
touches the summary cards, the charts and the notification only. -/
def loadDashboard (s : AppState) : AppState :=
  match s.currentUser with
  | some _ => { s with requests := s.requests ++ ["/analytics"] }
  | none => showNotification "Error loading dashboard" "error" s

/-- The synchronous part of `loadTransactions()`, like `loadDashboard`. -/
def loadTransactions (s : AppState) : AppState :=
  match s.currentUser with
  | some _ => { s with requests := s.requests ++ ["/transactions"] }
  | none => showNotification "Error loading transactions" "error" s

/-- The statements of the branch `if (response.ok)` shared by `handleLogin` and
`handleRegister`, with the text of the notification as a parameter. -/
def signedIn (data : AuthData) (text : String) (s : AppState) : AppState :=
  let s₁ : AppState :=
    { s with currentUser := some { token := data.token, user_id := some data.user_id,
                                   username := some data.username } }
  let s₂ : AppState := { s₁ with localStorage := setItem s₁.localStorage "token" data.token }
  let s₃ : AppState := { s₂ with localStorage := setItem s₂.localStorage "user_id" data.user_id }
  let s₄ : AppState := { s₃ with localStorage := setItem s₃.localStorage "username" data.username }
  loadDashboard (showApp (showNotification text "success" s₄))

/-- `handleLogin(e)`, run as one step with the reply of `/login` as input. -/
def handleLogin (response : AuthResponse) (s : AppState) : AppState :=
  let s₁ := showLoading s
  match response with
  | AuthResponse.ok data => hideLoading (signedIn data "Login successful!" s₁)
  | AuthResponse.rejected error => hideLoading (showNotification error "error" s₁)
  | AuthResponse.failed =>
    hideLoading (showNotification "Login failed. Please try again." "error" s₁)

/-- `handleRegister(e)`, run as one step with the reply of `/register` as input. -/
def handleRegister (response : AuthResponse) (s : AppState) : AppState :=
  let s₁ := showLoading s
  match response with
  | AuthResponse.ok data => hideLoading (signedIn data "Registration successful!" s₁)
  | AuthResponse.rejected error => hideLoading (showNotification error "error" s₁)
  | AuthResponse.failed =>
    hideLoading (showNotification "Registration failed. Please try again." "error" s₁)

/-- `handleLogout()`. -/
def handleLogout (s : AppState) : AppState :=
  let s₁ : AppState := { s with localStorage := removeItem s.localStorage "token" }
  let s₂ : AppState := { s₁ with localStorage := removeItem s₁.localStorage "user_id" }
  let s₃ : AppState := { s₂ with localStorage := removeItem s₂.localStorage "username" }
  let s₄ : AppState := { s₃ with currentUser := none }
  showNotification "Logged out successfully" "success" (showAuth s₄)

/-- `classList.add('active')` on one page. -/
def activate (page : Page) (s : AppState) : AppState :=
  { s with pageActive := fun q => decide (q = page) || s.pageActive q }

/-- `handleNavigation(e)` for a click on the navigation item `target`. -/
def handleNavigation (target : NavItem) (s : AppState) : AppState :=
  -- navItems.forEach(item => item.classList.remove('active')); currentTarget gets it
  let s₁ : AppState := { s with navActive := fun n => decide (n = target) }
  -- pages.forEach(page => page.classList.remove('active'))
  let s₂ : AppState := { s₁ with pageActive := fun _ => false }
  match target with
  | NavItem.navDashboard => loadDashboard (activate Page.dashboard s₂)
  | NavItem.navTransactions => loadTransactions (activate Page.transactions s₂)
  | NavItem.navAdd => activate Page.addTransaction s₂
  | NavItem.navUpload => activate Page.uploadCsv s₂
  | NavItem.navLogout => handleLogout s₂

/-- `initializeApp()`: a token is truthy when it is present and not empty. -/
def initializeApp (s : AppState) : AppState :=
  match getItem s.localStorage "token" with
  | some token =>
    if token ≠ "" then
      let user : Session :=
        { token := token, user_id := getItem s.localStorage "user_id",
          username := getItem s.localStorage "username" }
      loadDashboard (showApp { s with currentUser := some user })
    else showAuth s
  | none => showAuth s

/-- Modelled from the spec: the markup of the page is not part of the script.
The document starts with the Dashboard page and its navigation item marked
`active`, the loading overlay and the notification hidden, and no timer
pending; `freshPage storage` is the state right after loading, when
`initializeApp` has run on the given storage. -/
def freshPage (storage : Storage) : AppState :=
  initializeApp
    { now := 0
      currentUser := none
      localStorage := storage
      authHidden := false
      appHidden := true
      loadingHidden := true
      pageActive := fun q => decide (q = Page.dashboard)
      navActive := fun n => decide (n = NavItem.navDashboard)
      notification := { message := "", className := "notification hidden", hidden := true,
                        timers := [] }
      requests := [] }

/-- What the user and the service can do to the view: click a navigation item,
get a successful reply to a login or a registration, log out. -/
inductive Event where
  | navigate (target : NavItem)
  | login (data : AuthData)
  | register (data : AuthData)
  | logout

/-- The handler run for an event. -/
def step (s : AppState) : Event → AppState
  | Event.navigate target => handleNavigation target s
  | Event.login data => handleLogin (AuthResponse.ok data) s
  | Event.register data => handleRegister (AuthResponse.ok data) s
  | Event.logout => handleLogout s

/-- The state after a sequence of events. -/
def run (events : List Event) (s : AppState) : AppState :=
  events.foldl step s

/-- The pages that are marked `active`. -/
def activePages (s : AppState) : List Page :=
  allPages.filter s.pageActive

/-- A successful reply used to instantiate the statements about sessions. -/
def exampleData : AuthData :=
  { token := "tok-1", user_id := "7", username := "ann" }

/-! ## Transaction list filter (`filterTransactions`) -/

/-- A rendered element of class `transaction-item`: its `data-type` and
`data-category` attributes (absent on the placeholder row) and its
`style.display`. -/
structure Row where
  dataType : Option String
  dataCategory : Option String
  display : String

/-- The body of the `forEach` of `filterTransactions` for one row: an empty
filter value is falsy, `===` against an absent attribute is false. -/
def filterRow (typeFilter categoryFilter : String) (transaction : Row) : Row :=
  let type := transaction.dataType
  let category := transaction.dataCategory
  let typeMatch := (typeFilter == "") || (type == some typeFilter)
  let categoryMatch := (categoryFilter == "") || (category == some categoryFilter)
  { transaction with display := if typeMatch && categoryMatch then "flex" else "none" }

/-- `filterTransactions()` as a function of the two select values and the rows
found in the document. -/
def filterTransactions (typeFilter categoryFilter : String) (transactions : List Row) : List Row :=
  transactions.map (filterRow typeFilter categoryFilter)

/-! ## Theorems -/

/-! ### Lemmas on the detection loop -/

theorem includesChars_iff_isInfix (s kw : List Char) :
    includesChars s kw = true ↔ kw <:+: s := by
  induction s with
  | nil =>
    cases kw <;> simp [includesChars]
  | cons c cs ih =>
    rw [includesChars, Bool.or_eq_true, ih, List.isPrefixOf_iff_prefix, List.infix_cons_iff]

theorem detectLoop_of_none (d : String) (L : List (String × List String)) (dflt : String)
    (h : ∀ e ∈ L, someKeyword d e.2 = false) : detectLoop d L dflt = dflt := by
  induction L with
  | nil => rfl
  | cons e rest ih =>
    obtain ⟨c, kws⟩ := e
    have h0 : someKeyword d kws = false := h (c, kws) (List.mem_cons_self _ _)
    simp only [detectLoop, h0]
    exact ih (fun e he => h e (List.mem_cons_of_mem _ he))

theorem detectLoop_mem (d : String) (L : List (String × List String)) (dflt : String) :
    detectLoop d L dflt = dflt ∨ detectLoop d L dflt ∈ L.map Prod.fst := by
  induction L with
  | nil => exact Or.inl rfl
  | cons e rest ih =>
    obtain ⟨c, kws⟩ := e
    by_cases h0 : someKeyword d kws = true
    · right
      simp [detectLoop, h0]
    · simp only [detectLoop, h0]
      rcases ih with h | h
      · exact Or.inl h
      · right
        simp only [List.map_cons, List.mem_cons]
        exact Or.inr h

/-- First match wins: the loop returns the `i`-th category exactly when that
category matches and no category before position `i` does. -/
theorem detectLoop_eq_iff (d : String) (L : List (String × List String)) (dflt : String)
    (hn : (L.map Prod.fst).Nodup) (hd : dflt ∉ L.map Prod.fst)
    (i : Nat) (C : String) (kws : List String) (hi : L[i]? = some (C, kws)) :
    detectLoop d L dflt = C ↔
      (someKeyword d kws = true ∧ ∀ e ∈ L.take i, someKeyword d e.2 = false) := by
  induction L generalizing i with
  | nil => simp at hi
  | cons e rest ih =>
    obtain ⟨c, ks⟩ := e
    simp only [List.map_cons, List.nodup_cons] at hn
    simp only [List.map_cons, List.mem_cons, not_or] at hd
    cases i with
    | zero =>
      simp only [List.getElem?_cons_zero, Option.some.injEq, Prod.mk.injEq] at hi
      obtain ⟨rfl, rfl⟩ := hi
      cases h0 : someKeyword d ks with
      | true => simp [detectLoop, h0]
      | false =>
        simp only [detectLoop, h0, Bool.false_eq_true, if_false, false_and, iff_false]
        intro h
        rcases detectLoop_mem d rest dflt with h1 | h1
        · exact hd.1 (h1.symm.trans h)
        · exact hn.1 (h ▸ h1)
    | succ k =>
      simp only [List.getElem?_cons_succ] at hi
      have hC : C ∈ rest.map Prod.fst :=
        List.mem_map.2 ⟨(C, kws), List.getElem?_mem hi, rfl⟩
      cases h0 : someKeyword d ks with
      | true =>
        simp only [detectLoop, h0, if_true]
        constructor
        · intro h
          exact absurd (h ▸ hC) hn.1
        · intro h
          have := h.2 (c, ks) (by simp)
          simp [h0] at this
      | false =>
        simp only [detectLoop, h0, Bool.false_eq_true, if_false]
        rw [ih hn.2 hd.2 k hi]
        simp only [List.take_succ_cons, List.mem_cons, forall_eq_or_imp, h0, true_and]

theorem categoryKeywords_nodup : (categoryKeywords.map Prod.fst).Nodup := by decide

theorem other_not_category : "other" ∉ categoryKeywords.map Prod.fst := by decide

/-- The loop either falls through with no category matching, or stops at a
matching category. -/
theorem detectLoop_cases (d : String) (L : List (String × List String)) (dflt : String) :
    (detectLoop d L dflt = dflt ∧ ∀ e ∈ L, someKeyword d e.2 = false) ∨
      ∃ e ∈ L, someKeyword d e.2 = true ∧ detectLoop d L dflt = e.1 := by
  induction L with
  | nil => exact Or.inl ⟨rfl, by simp⟩
  | cons e rest ih =>
    obtain ⟨c, ks⟩ := e
    cases h0 : someKeyword d ks with
    | true =>
      right
      exact ⟨(c, ks), List.mem_cons_self _ _, h0, by simp [detectLoop, h0]⟩
    | false =>
      simp only [detectLoop, h0, Bool.false_eq_true, if_false]
      rcases ih with ⟨h1, h2⟩ | ⟨e, he, h1, h2⟩
      · left
        refine ⟨h1, ?_⟩
        intro e he
        rcases List.mem_cons.1 he with rfl | he
        · exact h0
        · exact h2 e he
      · right
        exact ⟨e, List.mem_cons_of_mem _ he, h1, h2⟩

theorem someKeyword_eq_true_iff (d : String) (kws : List String) :
    someKeyword d kws = true ↔ ∃ k ∈ kws, includes d k = true := by
  simp [someKeyword, List.any_eq_true]

theorem someKeyword_eq_false_iff (d : String) (kws : List String) :
    someKeyword d kws = false ↔ ∀ k ∈ kws, includes d k = false := by
  simp [someKeyword, List.any_eq_false]

/-! ### Category detection: the main statements -/

/-- C1: a description whose lower-cased text contains a keyword of exactly one
category is given that category; a non-empty description containing no keyword
at all is given "other"; the empty description is given the empty string; and
"Coffee at Blue Bottle", "Monthly Netflix", "xyz123" are given "dining",
"entertainment", "other". -/
theorem autoDetectCategory_unique_match (toLowerCase : String → String) (description : String) :
    (description ≠ "" → ∀ e ∈ categoryKeywords,
        (∃ k ∈ e.2, includes (toLowerCase description) k = true) →
        (∀ e' ∈ categoryKeywords,
            (∃ k ∈ e'.2, includes (toLowerCase description) k = true) → e'.1 = e.1) →
        autoDetectCategory toLowerCase description = e.1) ∧
    (description ≠ "" →
        (∀ e ∈ categoryKeywords, ∀ k ∈ e.2, includes (toLowerCase description) k = false) →
        autoDetectCategory toLowerCase description = "other") ∧
    autoDetectCategory toLowerCase "" = "" ∧
    autoDetectCategory asciiLower "Coffee at Blue Bottle" = "dining" ∧
    autoDetectCategory asciiLower "Monthly Netflix" = "entertainment" ∧
    autoDetectCategory asciiLower "xyz123" = "other" := by
  refine ⟨?_, ?_, ?_, by decide, by decide, by decide⟩
  · intro hne e he hmatch huniq
    simp only [autoDetectCategory, hne, ne_eq, not_false_eq_true, if_true]
    rcases detectLoop_cases (toLowerCase description) categoryKeywords "other" with
      ⟨_, h2⟩ | ⟨e', he', h1, h2⟩
    · have := h2 e he
      rw [someKeyword_eq_false_iff] at this
      obtain ⟨k, hk, hin⟩ := hmatch
      rw [this k hk] at hin
      exact absurd hin (by decide)
    · rw [h2]
      exact huniq e' he' ((someKeyword_eq_true_iff _ _).1 h1)
  · intro hne hnone
    simp only [autoDetectCategory, hne, ne_eq, not_false_eq_true, if_true]
    exact detectLoop_of_none _ _ _
      (fun e he => (someKeyword_eq_false_iff _ _).2 (hnone e he))
  · simp [autoDetectCategory]

/-- Witness for C1: the theorem applied to "Coffee at Blue Bottle" (only the
dining keyword "coffee" occurs) and to "xyz123" (no keyword occurs). -/
theorem autoDetectCategory_unique_match_witness :
    autoDetectCategory asciiLower "Coffee at Blue Bottle" = "dining" ∧
    autoDetectCategory asciiLower "xyz123" = "other" :=
  ⟨(autoDetectCategory_unique_match asciiLower "Coffee at Blue Bottle").1 (by decide)
      ("dining", ["restaurant", "cafe", "coffee", "pizza", "burger", "sushi", "dinner", "lunch"])
      (by decide) (by decide) (by decide),
   (autoDetectCategory_unique_match asciiLower "xyz123").2.1 (by decide) (by decide)⟩

/-- C2: for a non-empty description the result is the category at position `i`
of the enumeration groceries, transportation, entertainment, utilities,
shopping, dining, healthcare, education, travel exactly when the lower-cased
description contains a keyword of that category and no keyword of a category
at an earlier position.  So a description whose only keyword is "gas" is given
"transportation" and not "utilities", and a description containing
"amazon prime" is never given "shopping": it is given "entertainment" as soon
as no keyword of groceries or transportation occurs, as for the descriptions
"gas" and "amazon prime" themselves. -/
theorem autoDetectCategory_first_match (toLowerCase : String → String) (description : String)
    (hne : description ≠ "") :
    categoryKeywords.map Prod.fst =
      ["groceries", "transportation", "entertainment", "utilities", "shopping", "dining",
        "healthcare", "education", "travel"] ∧
    (∀ (i : Nat) (C : String) (kws : List String), categoryKeywords[i]? = some (C, kws) →
      (autoDetectCategory toLowerCase description = C ↔
        ((∃ k ∈ kws, includes (toLowerCase description) k = true) ∧
          ∀ e ∈ categoryKeywords.take i, ∀ k ∈ e.2,
            includes (toLowerCase description) k = false))) ∧
    (includes (toLowerCase description) "gas" = true →
      (∀ e ∈ categoryKeywords, ∀ k ∈ e.2,
        includes (toLowerCase description) k = true → k = "gas") →
      autoDetectCategory toLowerCase description = "transportation" ∧
        autoDetectCategory toLowerCase description ≠ "utilities") ∧
    (includes (toLowerCase description) "amazon prime" = true →
      autoDetectCategory toLowerCase description ≠ "shopping" ∧
        ((∀ e ∈ categoryKeywords.take 2, ∀ k ∈ e.2,
            includes (toLowerCase description) k = false) →
          autoDetectCategory toLowerCase description = "entertainment")) ∧
    autoDetectCategory asciiLower "gas" = "transportation" ∧
    autoDetectCategory asciiLower "amazon prime" = "entertainment" := by
  have key : ∀ (i : Nat) (C : String) (kws : List String), categoryKeywords[i]? = some (C, kws) →
      (autoDetectCategory toLowerCase description = C ↔
        ((∃ k ∈ kws, includes (toLowerCase description) k = true) ∧
          ∀ e ∈ categoryKeywords.take i, ∀ k ∈ e.2,
            includes (toLowerCase description) k = false)) := by
    intro i C kws hi
    simp only [autoDetectCategory, hne, ne_eq, not_false_eq_true, if_true]
    rw [detectLoop_eq_iff _ _ _ categoryKeywords_nodup other_not_category i C kws hi,
      someKeyword_eq_true_iff]
    simp only [someKeyword_eq_false_iff]
  refine ⟨by decide, key, ?_, ?_, by decide, by decide⟩
  · intro hgas honly
    have ht : autoDetectCategory toLowerCase description = "transportation" := by
      refine (key 1 "transportation" _ rfl).2 ⟨⟨"gas", by decide, hgas⟩, ?_⟩
      intro e he k hk
      cases hk' : includes (toLowerCase description) k with
      | false => rfl
      | true =>
        exfalso
        have hkgas := honly e (List.mem_of_mem_take he) k hk hk'
        subst hkgas
        revert e
        decide
    exact ⟨ht, by rw [ht]; decide⟩
  · intro hap
    have hent : ∃ k ∈ ["movie", "theater", "concert", "game", "netflix", "spotify",
        "amazon prime"], includes (toLowerCase description) k = true :=
      ⟨"amazon prime", by decide, hap⟩
    constructor
    · intro hshop
      have h := ((key 4 "shopping" _ rfl).1 hshop).2
        ("entertainment", ["movie", "theater", "concert", "game", "netflix", "spotify",
          "amazon prime"]) (by decide) "amazon prime" (by decide)
      rw [hap] at h
      exact absurd h (by decide)
    · intro hbefore
      exact (key 2 "entertainment" _ rfl).2 ⟨hent, hbefore⟩

/-- Witness for C2: "Gas station" contains the keyword "gas" and no other
keyword, and is given "transportation"; "Amazon Prime" contains the keyword
"amazon prime" and no keyword of groceries or transportation, and is given
"entertainment", not "shopping". -/
theorem autoDetectCategory_first_match_witness :
    (autoDetectCategory asciiLower "Gas station" = "transportation" ∧
      autoDetectCategory asciiLower "Gas station" ≠ "utilities") ∧
    autoDetectCategory asciiLower "Amazon Prime" ≠ "shopping" ∧
    autoDetectCategory asciiLower "Amazon Prime" = "entertainment" :=
  ⟨(autoDetectCategory_first_match asciiLower "Gas station" (by decide)).2.2.1
      (by decide) (by decide),
   ((autoDetectCategory_first_match asciiLower "Amazon Prime" (by decide)).2.2.2.1
      (by decide)).1,
   ((autoDetectCategory_first_match asciiLower "Amazon Prime" (by decide)).2.2.2.1
      (by decide)).2 (by decide)⟩

/-! ### The colour palette -/

theorem generateColorsLoop_eq (remaining i : Nat) (result : List String) :
    generateColorsLoop remaining i result =
      result ++ (List.range remaining).map (fun j => colorAt (i + j)) := by
  induction remaining generalizing i result with
  | zero => simp [generateColorsLoop]
  | succ k ih =>
    rw [generateColorsLoop, ih, List.range_succ_eq_map, List.map_cons, List.map_map,
      List.append_assoc]
    congr 1
    simp only [List.singleton_append, Nat.add_zero]
    congr 1
    apply List.map_congr_left
    intro j _
    simp only [Function.comp, Nat.succ_eq_add_one]
    congr 1
    omega

theorem generateColors_eq_map (count : Nat) :
    generateColors count = (List.range count).map colorAt := by
  rw [generateColors, generateColorsLoop_eq]
  simp

theorem colorAt_eq (i : Nat) : colors[i % 12]? = some (colorAt i) := by
  have hlt : i % 12 < colors.length := Nat.mod_lt i (by decide)
  rw [List.getElem?_eq_getElem hlt]
  rfl

/-- C5: `generateColors(n)` has exactly `n` entries, its entry at position
`i < n` is entry `i mod 12` of the fixed palette of 12 colours, so
`generateColors(m)` is a prefix of `generateColors(n)` for `m ≤ n` and the
colours at positions `i` and `i + 12` are the same. -/
theorem generateColors_cyclic (n : Nat) :
    (generateColors n).length = n ∧
    colors.length = 12 ∧
    (∀ i, i < n → ∃ c, colors[i % 12]? = some c ∧ (generateColors n)[i]? = some c) ∧
    (∀ m, m ≤ n → generateColors m <+: generateColors n) ∧
    (∀ i, i + 12 < n → ∃ c, (generateColors n)[i]? = some c ∧
      (generateColors n)[i + 12]? = some c) := by
  have hget : ∀ i, i < n → (generateColors n)[i]? = some (colorAt i) := by
    intro i hi
    rw [generateColors_eq_map, List.getElem?_map, List.getElem?_range hi]
    rfl
  refine ⟨by simp [generateColors_eq_map], rfl, ?_, ?_, ?_⟩
  · intro i hi
    exact ⟨colorAt i, colorAt_eq i, hget i hi⟩
  · intro m hm
    rw [generateColors_eq_map, generateColors_eq_map]
    obtain ⟨k, rfl⟩ := Nat.exists_eq_add_of_le hm
    rw [List.range_add, List.map_append]
    exact List.prefix_append _ _
  · intro i hi
    refine ⟨colorAt i, hget i (by omega), ?_⟩
    rw [hget (i + 12) hi]
    have h1 := colorAt_eq i
    have h2 := colorAt_eq (i + 12)
    rw [Nat.add_mod_right] at h2
    rw [h1] at h2
    exact h2.symm

/-- Witness for C5: fourteen colours; position 13 holds palette entry 1, and
positions 1 and 13 agree. -/
theorem generateColors_cyclic_witness :
    (∃ c, colors[13 % 12]? = some c ∧ (generateColors 14)[13]? = some c) ∧
    generateColors 3 <+: generateColors 14 ∧
    (∃ c, (generateColors 14)[1]? = some c ∧ (generateColors 14)[1 + 12]? = some c) :=
  ⟨(generateColors_cyclic 14).2.2.1 13 (by decide),
   (generateColors_cyclic 14).2.2.2.1 3 (by decide),
   (generateColors_cyclic 14).2.2.2.2 1 (by decide)⟩

/-! ### The transaction list filter -/

theorem filterRow_display (typeFilter categoryFilter : String) (row : Row) :
    ((filterRow typeFilter categoryFilter row).display = "flex" ↔
      (typeFilter = "" ∨ row.dataType = some typeFilter) ∧
        (categoryFilter = "" ∨ row.dataCategory = some categoryFilter)) ∧
    ((filterRow typeFilter categoryFilter row).display = "none" ↔
      ¬ ((typeFilter = "" ∨ row.dataType = some typeFilter) ∧
        (categoryFilter = "" ∨ row.dataCategory = some categoryFilter))) := by
  have hne : ("flex" : String) ≠ "none" := by decide
  have hiff : (((typeFilter == "") || (row.dataType == some typeFilter)) &&
      ((categoryFilter == "") || (row.dataCategory == some categoryFilter))) = true ↔
      ((typeFilter = "" ∨ row.dataType = some typeFilter) ∧
        (categoryFilter = "" ∨ row.dataCategory = some categoryFilter)) := by
    simp
  by_cases h : (typeFilter = "" ∨ row.dataType = some typeFilter) ∧
      (categoryFilter = "" ∨ row.dataCategory = some categoryFilter)
  · have hshow : (filterRow typeFilter categoryFilter row).display = "flex" := by
      simp only [filterRow, hiff.2 h, if_true]
    rw [hshow]
    exact ⟨⟨fun _ => h, fun _ => rfl⟩, ⟨fun hc => absurd hc hne, fun hn => absurd h hn⟩⟩
  · have hb : (((typeFilter == "") || (row.dataType == some typeFilter)) &&
        ((categoryFilter == "") || (row.dataCategory == some categoryFilter))) = false := by
      rw [← Bool.not_eq_true]
      exact fun hc => h (hiff.1 hc)
    have hshow : (filterRow typeFilter categoryFilter row).display = "none" := by
      simp only [filterRow, hb, Bool.false_eq_true, if_false]
    rw [hshow]
    exact ⟨⟨fun hc => absurd hc hne.symm, fun hp => absurd hp h⟩, ⟨fun _ => h, fun _ => rfl⟩⟩

/-- C6: `filterTransactions` keeps every row in place with its data attributes
and sets its display to "flex" exactly when (the type filter is empty or equals
the row's type) and (the category filter is empty or equals the row's
category), and to "none" otherwise; with both filters empty every row is
shown. -/
theorem filterTransactions_display (typeFilter categoryFilter : String)
    (transactions : List Row) :
    (filterTransactions typeFilter categoryFilter transactions).length = transactions.length ∧
    (∀ (i : Nat) (row : Row), transactions[i]? = some row →
      ∃ shown, (filterTransactions typeFilter categoryFilter transactions)[i]? = some shown ∧
        shown.dataType = row.dataType ∧ shown.dataCategory = row.dataCategory ∧
        (shown.display = "flex" ↔
          (typeFilter = "" ∨ row.dataType = some typeFilter) ∧
            (categoryFilter = "" ∨ row.dataCategory = some categoryFilter)) ∧
        (shown.display = "none" ↔
          ¬ ((typeFilter = "" ∨ row.dataType = some typeFilter) ∧
            (categoryFilter = "" ∨ row.dataCategory = some categoryFilter)))) ∧
    (∀ shown ∈ filterTransactions "" "" transactions, shown.display = "flex") := by
  refine ⟨by simp [filterTransactions], ?_, ?_⟩
  · intro i row hi
    refine ⟨filterRow typeFilter categoryFilter row, ?_, rfl, rfl,
      (filterRow_display typeFilter categoryFilter row).1,
      (filterRow_display typeFilter categoryFilter row).2⟩
    simp [filterTransactions, List.getElem?_map, hi]
  · intro shown hs
    obtain ⟨row, _, rfl⟩ := List.mem_map.1 hs
    exact (filterRow_display "" "" row).1.2 ⟨Or.inl rfl, Or.inl rfl⟩

/-- Witness for C6: an income row of category "salary" under the type filter
"expense" and no category filter. -/
theorem filterTransactions_display_witness :
    ∃ shown, (filterTransactions "expense" ""
        [{ dataType := some "income", dataCategory := some "salary", display := "" }])[0]?
          = some shown ∧
      shown.dataType = some "income" ∧ shown.dataCategory = some "salary" ∧
      (shown.display = "flex" ↔
        (("expense" : String) = "" ∨ some "income" = some "expense") ∧
          (("" : String) = "" ∨ some "salary" = some "")) ∧
      (shown.display = "none" ↔
        ¬ ((("expense" : String) = "" ∨ some "income" = some "expense") ∧
          (("" : String) = "" ∨ some "salary" = some ""))) :=
  (filterTransactions_display "expense" ""
    [{ dataType := some "income", dataCategory := some "salary", display := "" }]).2.1 0
    { dataType := some "income", dataCategory := some "salary", display := "" } rfl

/-! ### The category chart -/

/-- Summing an amount over a list of pairwise different names, counting it only
at one name of the list, gives the amount. -/
theorem sum_single_name (L : List String) (hL : L.Nodup) (x : String) (hx : x ∈ L) (a : ℚ) :
    (L.map (fun c => if x = c then a else 0)).sum = a := by
  induction L with
  | nil => simp at hx
  | cons c rest ih =>
    have hn := List.nodup_cons.1 hL
    have hzero : ∀ l : List String, x ∉ l → (l.map (fun c => if x = c then a else 0)).sum = 0 := by
      intro l hl
      induction l with
      | nil => simp
      | cons y ys ihy =>
        have hy : x ≠ y := fun h => hl (h ▸ List.mem_cons_self _ _)
        have hys : x ∉ ys := fun h => hl (List.mem_cons_of_mem _ h)
        simp [hy, ihy hys]
    rcases List.mem_cons.1 hx with rfl | hx'
    · simp [hzero rest hn.1]
    · have hxc : x ≠ c := fun h => hn.1 (h ▸ hx')
      simp [hxc, ih hn.2 hx']

/-- Splitting the transactions by category and adding up the parts gives the
total, when every transaction's category is listed exactly once. -/
theorem sum_by_category (L : List String) (hL : L.Nodup) (txs : List Transaction)
    (h : ∀ t ∈ txs, t.category ∈ L) :
    (L.map (fun c =>
      ((txs.filter (fun t => t.category = c)).map (fun t => t.amount)).sum)).sum =
      (txs.map (fun t => t.amount)).sum := by
  induction txs with
  | nil => simp
  | cons t rest ih =>
    have hrest : ∀ t ∈ rest, t.category ∈ L := fun t ht => h t (List.mem_cons_of_mem _ ht)
    have ht : t.category ∈ L := h t (List.mem_cons_self _ _)
    have hsplit : ∀ c : String,
        (((t :: rest).filter (fun t => t.category = c)).map (fun t => t.amount)).sum =
          (if t.category = c then t.amount else 0) +
            ((rest.filter (fun t => t.category = c)).map (fun t => t.amount)).sum := by
      intro c
      by_cases hc : t.category = c
      · simp [List.filter_cons, hc]
      · simp [List.filter_cons, hc]
    simp only [hsplit]
    rw [List.sum_map_add, ih hrest, sum_single_name L hL t.category ht t.amount]
    simp

/-- C4: when the categories sequence handed to the chart summarises a non-empty
set of transactions, the chart has one label and one data value per distinct
category of the transactions, and the data values sum to the total amount of
the transactions. -/
theorem updateCategoryChart_segments (transactions : List Transaction)
    (categories : List CategoryEntry) (hne : transactions ≠ [])
    (hsum : IsCategorySummary transactions categories) :
    ∃ chart, updateCategoryChart true categories = some chart ∧
      chart.labels.length = ((transactions.map (fun t => t.category)).dedup).length ∧
      chart.data.length = ((transactions.map (fun t => t.category)).dedup).length ∧
      0 < chart.labels.length ∧
      chart.data.sum = (transactions.map (fun t => t.amount)).sum := by
  obtain ⟨hnodup, hcover, hocc, hamount⟩ := hsum
  have hperm : (categories.map (fun cat => cat.category)).Perm
      ((transactions.map (fun t => t.category)).dedup) := by
    rw [List.perm_ext_iff_of_nodup hnodup (List.nodup_dedup _)]
    intro a
    rw [List.mem_dedup]
    constructor
    · intro ha
      obtain ⟨cat, hcat, rfl⟩ := List.mem_map.1 ha
      exact hocc cat hcat
    · intro ha
      obtain ⟨t, ht, rfl⟩ := List.mem_map.1 ha
      exact hcover t ht
  have hlen : categories.length = ((transactions.map (fun t => t.category)).dedup).length := by
    rw [← hperm.length_eq, List.length_map]
  have hpos : 0 < categories.length := by
    cases transactions with
    | nil => exact absurd rfl hne
    | cons t rest =>
      have := hcover t (List.mem_cons_self _ _)
      cases categories with
      | nil => simp at this
      | cons c cs => simp
  refine ⟨{ labels := categories.map (fun cat => cat.category),
             data := categories.map (fun cat => cat.amount),
             colors := generateColors (categories.map (fun cat => cat.category)).length },
    rfl, ?_, ?_, ?_, ?_⟩
  · simpa using hlen
  · simpa using hlen
  · simpa using hpos
  · have h1 : categories.map (fun cat => cat.amount) =
        (categories.map (fun cat => cat.category)).map (fun c =>
          ((transactions.filter (fun t => t.category = c)).map (fun t => t.amount)).sum) := by
      rw [List.map_map]
      apply List.map_congr_left
      intro cat hcat
      exact hamount cat hcat
    show (categories.map (fun cat => cat.amount)).sum = _
    rw [h1]
    exact sum_by_category _ hnodup transactions hcover

/-- Witness for C4: the three example transactions and their summary in two
categories. -/
theorem updateCategoryChart_segments_witness :
    ∃ chart, updateCategoryChart true exampleCategories = some chart ∧
      chart.labels.length = ((exampleTransactions.map (fun t => t.category)).dedup).length ∧
      chart.data.length = ((exampleTransactions.map (fun t => t.category)).dedup).length ∧
      0 < chart.labels.length ∧
      chart.data.sum = (exampleTransactions.map (fun t => t.amount)).sum :=
  updateCategoryChart_segments exampleTransactions exampleCategories
    (List.cons_ne_nil _ _)
    ⟨by decide, by decide, by decide, by
      intro cat hcat
      simp only [exampleCategories, List.mem_cons, List.mem_singleton, List.not_mem_nil,
        or_false] at hcat
      rcases hcat with rfl | rfl
      · simp [exampleTransactions, List.filter]
        norm_num
      · simp [exampleTransactions, List.filter]⟩

/-! ### The order of JavaScript strings -/

theorem unitsLt_irrefl (a : List Nat) : unitsLt a a = false := by
  induction a with
  | nil => rfl
  | cons x xs ih => simp [unitsLt, ih]

theorem unitsLt_trans (a b c : List Nat) (hab : unitsLt a b = true) (hbc : unitsLt b c = true) :
    unitsLt a c = true := by
  induction a generalizing b c with
  | nil =>
    cases b with
    | nil => simp [unitsLt] at hab
    | cons y ys =>
      cases c with
      | nil => simp [unitsLt] at hbc
      | cons z zs => rfl
  | cons x xs ih =>
    cases b with
    | nil => simp [unitsLt] at hab
    | cons y ys =>
      cases c with
      | nil => simp [unitsLt] at hbc
      | cons z zs =>
        simp only [unitsLt, Bool.or_eq_true, decide_eq_true_eq, Bool.and_eq_true, beq_iff_eq]
          at hab hbc ⊢
        rcases hab with h1 | ⟨h1, h1'⟩
        · rcases hbc with h2 | ⟨h2, _⟩
          · exact Or.inl (by omega)
          · exact Or.inl (by omega)
        · rcases hbc with h2 | ⟨h2, h2'⟩
          · exact Or.inl (by omega)
          · exact Or.inr ⟨by omega, ih ys zs h1' h2'⟩

theorem unitsLt_trichotomy (a b : List Nat) :
    unitsLt a b = true ∨ a = b ∨ unitsLt b a = true := by
  induction a generalizing b with
  | nil =>
    cases b with
    | nil => exact Or.inr (Or.inl rfl)
    | cons y ys => exact Or.inl rfl
  | cons x xs ih =>
    cases b with
    | nil => exact Or.inr (Or.inr rfl)
    | cons y ys =>
      simp only [unitsLt, Bool.or_eq_true, decide_eq_true_eq, Bool.and_eq_true, beq_iff_eq,
        List.cons.injEq]
      rcases Nat.lt_trichotomy x y with h | h | h
      · exact Or.inl (Or.inl h)
      · rcases ih ys with h' | h' | h'
        · exact Or.inl (Or.inr ⟨h, h'⟩)
        · exact Or.inr (Or.inl ⟨h, h'⟩)
        · exact Or.inr (Or.inr (Or.inr ⟨h.symm, h'⟩))
      · exact Or.inr (Or.inr (Or.inl h))

theorem char_toNat_range (c : Char) :
    c.toNat < 55296 ∨ (57343 < c.toNat ∧ c.toNat < 1114112) := by
  have h := c.valid
  simpa [UInt32.isValidChar, Nat.isValidChar, Char.toNat] using h

theorem char_eq_of_toNat_eq (c c' : Char) (h : c.toNat = c'.toNat) : c = c' := by
  apply Char.ext
  cases c with
  | mk v hv =>
    cases c' with
    | mk v' hv' =>
      simp only [Char.toNat] at h
      exact UInt32.toNat.inj h

theorem utf16_append_inj (c c' : Char) (x y : List Nat)
    (h : utf16 c ++ x = utf16 c' ++ y) : c = c' ∧ x = y := by
  have hc := char_toNat_range c
  have hc' := char_toNat_range c'
  unfold utf16 at h
  by_cases h1 : c.toNat < 65536 <;> by_cases h2 : c'.toNat < 65536 <;>
    simp only [h1, h2, if_true, if_false, List.cons_append, List.nil_append, List.cons.injEq] at h
  · exact ⟨char_eq_of_toNat_eq c c' h.1, h.2⟩
  · omega
  · omega
  · exact ⟨char_eq_of_toNat_eq c c' (by omega), h.2.2⟩

theorem codeUnits_injective (s s' : String) (h : codeUnits s = codeUnits s') : s = s' := by
  apply String.ext
  unfold codeUnits at h
  generalize s.data = a at h
  generalize s'.data = b at h
  induction a generalizing b with
  | nil =>
    cases b with
    | nil => rfl
    | cons y ys =>
      exfalso
      simp only [List.flatMap_nil, List.flatMap_cons] at h
      unfold utf16 at h
      split at h <;> simp at h
  | cons x xs ih =>
    cases b with
    | nil =>
      exfalso
      simp only [List.flatMap_nil, List.flatMap_cons] at h
      unfold utf16 at h
      split at h <;> simp at h
    | cons y ys =>
      simp only [List.flatMap_cons] at h
      obtain ⟨h1, h2⟩ := utf16_append_inj x y _ _ h
      rw [h1, ih ys h2]

/-! ### Grouping by date -/

theorem hasOwn_iff (g : Grouped) (k : String) : hasOwn g k = true ↔ k ∈ g.map Prod.fst := by
  simp only [hasOwn, List.any_eq_true, beq_iff_eq, List.mem_map]

theorem updateOwn_keys (g : Grouped) (k : String) (f : Bucket → Bucket) :
    (updateOwn g k f).map Prod.fst = g.map Prod.fst := by
  simp only [updateOwn, List.map_map]
  apply List.map_congr_left
  intro e _
  simp only [Function.comp]
  split <;> rfl

theorem mem_updateOwn (g : Grouped) (k : String) (f : Bucket → Bucket) (d : String) (b : Bucket)
    (h : (d, b) ∈ updateOwn g k f) :
    ∃ b0, (d, b0) ∈ g ∧ b = if d = k then f b0 else b0 := by
  obtain ⟨e, he, heq⟩ := List.mem_map.1 h
  obtain ⟨d0, b0⟩ := e
  by_cases hk : d0 = k
  · simp only [hk, beq_self_eq_true, if_true, Prod.mk.injEq] at heq
    obtain ⟨rfl, rfl⟩ := heq
    exact ⟨b0, hk ▸ he, by simp⟩
  · have hk' : (d0 == k) = false := by simpa using hk
    simp only [hk', Bool.false_eq_true, if_false, Prod.mk.injEq] at heq
    obtain ⟨rfl, rfl⟩ := heq
    exact ⟨b0, he, by simp [hk]⟩

theorem incomeTotalOn_append (ts : List Transaction) (t : Transaction) (d : String) :
    incomeTotalOn (ts ++ [t]) d =
      incomeTotalOn ts d + (if t.date = d ∧ t.type = "income" then t.amount else 0) := by
  unfold incomeTotalOn
  by_cases h : t.date = d ∧ t.type = "income"
  · simp [List.filter_append, List.filter_cons, h]
  · simp [List.filter_append, List.filter_cons, h]

theorem otherTotalOn_append (ts : List Transaction) (t : Transaction) (d : String) :
    otherTotalOn (ts ++ [t]) d =
      otherTotalOn ts d + (if t.date = d ∧ t.type ≠ "income" then t.amount else 0) := by
  unfold otherTotalOn
  by_cases h : t.date = d ∧ t.type ≠ "income"
  · simp [List.filter_append, List.filter_cons, h]
  · simp [List.filter_append, List.filter_cons, h]

theorem totals_of_no_date (ts : List Transaction) (d : String)
    (h : ¬ ∃ t ∈ ts, t.date = d) : incomeTotalOn ts d = 0 ∧ otherTotalOn ts d = 0 := by
  have h1 : ts.filter (fun t => t.date = d ∧ t.type = "income") = [] := by
    rw [List.filter_eq_nil_iff]
    intro t ht hc
    exact h ⟨t, ht, (of_decide_eq_true hc).1⟩
  have h2 : ts.filter (fun t => t.date = d ∧ t.type ≠ "income") = [] := by
    rw [List.filter_eq_nil_iff]
    intro t ht hc
    exact h ⟨t, ht, (of_decide_eq_true hc).1⟩
  unfold incomeTotalOn otherTotalOn
  rw [h1, h2]
  simp

theorem groupedFor_nil : GroupedFor [] [] := by
  refine ⟨by simp, by simp, ?_⟩
  intro d b h
  simp at h

/-- One round of the `forEach` keeps the per-date totals up to date, for a
transaction whose date is not an inherited property name. -/
theorem groupedFor_step (inherited : String → Bool) (g : Grouped) (ts : List Transaction)
    (t : Transaction) (h : GroupedFor g ts) (ht : inherited t.date = false) :
    GroupedFor (groupStep inherited g t) (ts ++ [t]) := by
  obtain ⟨hnd, hmem, hval⟩ := h
  -- the object after the `if (!groupedData[date])` statement
  have hP : ∃ g1 : Grouped,
      (if !(hasOwn g t.date || inherited t.date) then
          g ++ [(t.date, ({ income := 0, expense := 0 } : Bucket))] else g) = g1 ∧
      (g1.map Prod.fst).Nodup ∧
      (∀ d, d ∈ g1.map Prod.fst ↔ (d = t.date ∨ ∃ t' ∈ ts, t'.date = d)) ∧
      (∀ d b, (d, b) ∈ g1 → b.income = incomeTotalOn ts d ∧ b.expense = otherTotalOn ts d) := by
    cases hown : hasOwn g t.date with
    | true =>
      have hk : t.date ∈ g.map Prod.fst := (hasOwn_iff g t.date).1 hown
      refine ⟨g, by simp, hnd, ?_, hval⟩
      intro d
      constructor
      · intro hd
        exact Or.inr ((hmem d).1 hd)
      · rintro (rfl | hd)
        · exact hk
        · exact (hmem d).2 hd
    | false =>
      have hk : t.date ∉ g.map Prod.fst := by
        intro hc
        rw [← hasOwn_iff, hown] at hc
        exact absurd hc (by decide)
      refine ⟨g ++ [(t.date, { income := 0, expense := 0 })], by simp [ht], ?_, ?_, ?_⟩
      · rw [List.map_append, List.nodup_append]
        refine ⟨hnd, by simp, ?_⟩
        intro a ha hb
        simp only [List.map_cons, List.map_nil, List.mem_singleton] at hb
        exact hk (hb ▸ ha)
      · intro d
        simp only [List.map_append, List.map_cons, List.map_nil, List.mem_append,
          List.mem_singleton]
        rw [hmem d]
        exact or_comm
      · intro d b hdb
        rcases List.mem_append.1 hdb with hdb | hdb
        · exact hval d b hdb
        · simp only [List.mem_singleton, Prod.mk.injEq] at hdb
          obtain ⟨rfl, rfl⟩ := hdb
          have hno : ¬ ∃ t' ∈ ts, t'.date = t.date := fun hc => hk ((hmem _).2 hc)
          have h0 := totals_of_no_date ts t.date hno
          exact ⟨h0.1.symm, h0.2.symm⟩
  obtain ⟨g1, hg1, hnd1, hmem1, hval1⟩ := hP
  have hmem2 : ∀ d, (d = t.date ∨ ∃ t' ∈ ts, t'.date = d) ↔ ∃ t' ∈ ts ++ [t], t'.date = d := by
    intro d
    constructor
    · rintro (rfl | ⟨t', ht', rfl⟩)
      · exact ⟨t, by simp, rfl⟩
      · exact ⟨t', by simp [ht'], rfl⟩
    · rintro ⟨t', ht', rfl⟩
      rcases List.mem_append.1 ht' with h' | h'
      · exact Or.inr ⟨t', h', rfl⟩
      · left
        rw [List.mem_singleton.1 h']
  unfold groupStep
  simp only [hg1]
  by_cases hty : t.type = "income"
  · simp only [hty, if_true]
    refine ⟨by rw [updateOwn_keys]; exact hnd1, ?_, ?_⟩
    · intro d
      rw [updateOwn_keys, hmem1 d, hmem2 d]
    · intro d b hdb
      obtain ⟨b0, hb0, rfl⟩ := mem_updateOwn _ _ _ _ _ hdb
      obtain ⟨hi, he⟩ := hval1 d b0 hb0
      rw [incomeTotalOn_append, otherTotalOn_append]
      by_cases hd : d = t.date
      · subst hd
        simp [hty, hi, he]
      · have hd' : ¬ t.date = d := fun hc => hd hc.symm
        simp [hd, hd', hi, he]
  · simp only [hty, if_false]
    refine ⟨by rw [updateOwn_keys]; exact hnd1, ?_, ?_⟩
    · intro d
      rw [updateOwn_keys, hmem1 d, hmem2 d]
    · intro d b hdb
      obtain ⟨b0, hb0, rfl⟩ := mem_updateOwn _ _ _ _ _ hdb
      obtain ⟨hi, he⟩ := hval1 d b0 hb0
      rw [incomeTotalOn_append, otherTotalOn_append]
      by_cases hd : d = t.date
      · subst hd
        simp [hty, hi, he]
      · have hd' : ¬ t.date = d := fun hc => hd hc.symm
        simp [hd, hd', hi, he]

theorem groupedFor_foldl (inherited : String → Bool) (ts : List Transaction)
    (h : ∀ t ∈ ts, inherited t.date = false) :
    GroupedFor (ts.foldl (groupStep inherited) []) ts := by
  induction ts using List.reverseRecOn with
  | nil => exact groupedFor_nil
  | append_singleton ts t ih =>
    rw [List.foldl_append]
    exact groupedFor_step inherited _ ts t
      (ih (fun t' ht' => h t' (List.mem_append_left _ ht')))
      (h t (by simp))

theorem getOwn_of_mem_keys (g : Grouped) (k : String) (h : k ∈ g.map Prod.fst) :
    ∃ b, getOwn g k = some b ∧ (k, b) ∈ g := by
  unfold getOwn
  cases hf : g.find? (fun e => e.1 == k) with
  | none =>
    exfalso
    obtain ⟨e, he, hek⟩ := List.mem_map.1 h
    have := List.find?_eq_none.1 hf e he
    simp [hek] at this
  | some e =>
    obtain ⟨d, b⟩ := e
    have h1 := List.find?_some hf
    have h2 := List.mem_of_find?_eq_some hf
    simp only [beq_iff_eq] at h1
    subst h1
    exact ⟨b, rfl, h2⟩

theorem seriesOf_spec (g : Grouped) (f : Bucket → ℚ) (dates : List String)
    (h : ∀ d ∈ dates, d ∈ g.map Prod.fst) :
    ∃ vs, seriesOf g f dates = some vs ∧ vs.length = dates.length ∧
      ∀ (i : Nat) (d : String), dates[i]? = some d →
        ∃ b, (d, b) ∈ g ∧ vs[i]? = some (f b) := by
  induction dates with
  | nil => exact ⟨[], rfl, rfl, by simp⟩
  | cons date rest ih =>
    obtain ⟨vs, hvs, hlen, hget⟩ := ih (fun d hd => h d (List.mem_cons_of_mem _ hd))
    obtain ⟨b, hb, hbmem⟩ := getOwn_of_mem_keys g date (h date (List.mem_cons_self _ _))
    refine ⟨f b :: vs, by simp only [seriesOf, hb, hvs], by simp [hlen], ?_⟩
    intro i d hi
    cases i with
    | zero =>
      simp only [List.getElem?_cons_zero, Option.some.injEq] at hi
      subst hi
      exact ⟨b, hbmem, by simp⟩
    | succ j =>
      simp only [List.getElem?_cons_succ] at hi ⊢
      exact hget j d hi

/-! ### Sorting the dates -/

theorem jsLe_iff (a b : String) :
    jsLe a b = true ↔ unitsLt (codeUnits b) (codeUnits a) = false := by
  simp [jsLe, jsLt]

theorem jsLe_isTotal : IsTotal String (fun a b => jsLe a b = true) where
  total a b := by
    rw [jsLe_iff, jsLe_iff]
    cases h1 : unitsLt (codeUnits b) (codeUnits a) with
    | false => exact Or.inl rfl
    | true =>
      right
      cases h2 : unitsLt (codeUnits a) (codeUnits b) with
      | false => rfl
      | true =>
        have h3 := unitsLt_trans _ _ _ h1 h2
        rw [unitsLt_irrefl] at h3
        exact absurd h3 (by decide)

theorem jsLe_isTrans : IsTrans String (fun a b => jsLe a b = true) where
  trans a b c := by
    intro hab hbc
    rw [jsLe_iff] at hab hbc ⊢
    cases hca : unitsLt (codeUnits c) (codeUnits a) with
    | false => rfl
    | true =>
      exfalso
      rcases unitsLt_trichotomy (codeUnits a) (codeUnits b) with h | h | h
      · have := unitsLt_trans _ _ _ hca h
        rw [hbc] at this
        exact absurd this (by decide)
      · rw [h, hbc] at hca
        exact absurd hca (by decide)
      · rw [hab] at h
        exact absurd h (by decide)

theorem sortKeys_perm (keys : List String) : (sortKeys keys).Perm keys :=
  List.perm_insertionSort _ keys

/-- Sorting pairwise different strings puts them in strictly ascending order. -/
theorem sortKeys_strict (keys : List String) (h : keys.Nodup) :
    (sortKeys keys).Pairwise (fun a b => jsLt a b = true) := by
  haveI := jsLe_isTotal
  haveI := jsLe_isTrans
  have hs : (sortKeys keys).Pairwise (fun a b => jsLe a b = true) :=
    List.sorted_insertionSort _ keys
  have hn : (sortKeys keys).Pairwise (fun a b => a ≠ b) :=
    (sortKeys_perm keys).nodup_iff.2 h
  refine (hs.and hn).imp ?_
  intro a b hab
  obtain ⟨hle, hne⟩ := hab
  rw [jsLe_iff] at hle
  rcases unitsLt_trichotomy (codeUnits a) (codeUnits b) with h1 | h1 | h1
  · exact h1
  · exact absurd (codeUnits_injective a b h1) hne
  · rw [hle] at h1
    exact absurd h1 (by decide)

/-! ### The time series of the dashboard -/

/-- C3: the labels of the time-series chart are exactly the dates that occur
among the transactions, each once, in strictly ascending order of the
JavaScript string comparison; the income value at the position of a label is
the sum of the amounts of the income transactions of that date, and the
expense value the sum of the amounts of the expense transactions of that
date.  Dates are calendar date strings, so none of them is a property name
that an empty object inherits. -/
theorem updateMonthlyChart_per_date_totals (inherited : String → Bool)
    (transactions : List Transaction)
    (hdate : ∀ t ∈ transactions, inherited t.date = false)
    (htype : ∀ t ∈ transactions, t.type = "income" ∨ t.type = "expense") :
    ∃ chart, updateMonthlyChart true inherited transactions = some chart ∧
      (∀ d, d ∈ chart.labels ↔ ∃ t ∈ transactions, t.date = d) ∧
      chart.labels.Nodup ∧
      chart.labels.Pairwise (fun a b => jsLt a b = true) ∧
      chart.incomeData.length = chart.labels.length ∧
      chart.expenseData.length = chart.labels.length ∧
      ∀ (i : Nat) (d : String), chart.labels[i]? = some d →
        chart.incomeData[i]? = some
          ((transactions.filter (fun t => t.date = d ∧ t.type = "income")).map
            (fun t => t.amount)).sum ∧
        chart.expenseData[i]? = some
          ((transactions.filter (fun t => t.date = d ∧ t.type = "expense")).map
            (fun t => t.amount)).sum := by
  obtain ⟨hnd, hmem, hval⟩ := groupedFor_foldl inherited transactions hdate
  have hperm := sortKeys_perm ((transactions.foldl (groupStep inherited) []).map Prod.fst)
  have hsub : ∀ d ∈ sortKeys ((transactions.foldl (groupStep inherited) []).map Prod.fst),
      d ∈ (transactions.foldl (groupStep inherited) []).map Prod.fst :=
    fun d hd => hperm.mem_iff.1 hd
  obtain ⟨vi, hvi, hli, hgi⟩ :=
    seriesOf_spec (transactions.foldl (groupStep inherited) []) (fun b => b.income) _ hsub
  obtain ⟨ve, hve, hle, hge⟩ :=
    seriesOf_spec (transactions.foldl (groupStep inherited) []) (fun b => b.expense) _ hsub
  have hexp : ∀ d, otherTotalOn transactions d =
      ((transactions.filter (fun t => t.date = d ∧ t.type = "expense")).map
        (fun t => t.amount)).sum := by
    intro d
    unfold otherTotalOn
    congr 2
    apply List.filter_congr
    intro t ht
    rcases htype t ht with h | h
    · simp [h]
    · simp [h]
  refine ⟨{ labels := sortKeys ((transactions.foldl (groupStep inherited) []).map Prod.fst),
            incomeData := vi, expenseData := ve }, ?_, ?_, ?_, ?_, hli, hle, ?_⟩
  · simp only [updateMonthlyChart, Bool.not_true, Bool.false_eq_true, if_false, hvi, hve]
  · intro d
    rw [hperm.mem_iff, hmem d]
  · exact hperm.nodup_iff.2 hnd
  · exact sortKeys_strict _ hnd
  · intro i d hi
    obtain ⟨b, hb, hbi⟩ := hgi i d hi
    obtain ⟨b', hb', hbe⟩ := hge i d hi
    refine ⟨?_, ?_⟩
    · rw [hbi, (hval d b hb).1]
      rfl
    · rw [hbe, (hval d b' hb').2, hexp d]

/-- Witness for C3: the three example transactions, none of whose dates is a
name inherited from `Object.prototype`. -/
theorem updateMonthlyChart_per_date_totals_witness :
    ∃ chart, updateMonthlyChart true inheritedName exampleTransactions = some chart ∧
      (∀ d, d ∈ chart.labels ↔ ∃ t ∈ exampleTransactions, t.date = d) ∧
      chart.labels.Nodup ∧
      chart.labels.Pairwise (fun a b => jsLt a b = true) ∧
      chart.incomeData.length = chart.labels.length ∧
      chart.expenseData.length = chart.labels.length ∧
      ∀ (i : Nat) (d : String), chart.labels[i]? = some d →
        chart.incomeData[i]? = some
          ((exampleTransactions.filter (fun t => t.date = d ∧ t.type = "income")).map
            (fun t => t.amount)).sum ∧
        chart.expenseData[i]? = some
          ((exampleTransactions.filter (fun t => t.date = d ∧ t.type = "expense")).map
            (fun t => t.amount)).sum :=
  updateMonthlyChart_per_date_totals inheritedName exampleTransactions
    (by decide) (by decide)

/-! ### Storage -/

theorem getItem_removeItem (storage : Storage) (k k' : String) :
    getItem (removeItem storage k') k = if k = k' then none else getItem storage k := by
  induction storage with
  | nil => simp [getItem, removeItem]
  | cons e rest ih =>
    obtain ⟨a, v⟩ := e
    simp only [getItem, removeItem] at ih ⊢
    by_cases hk : k = k'
    · subst hk
      simp only [if_true] at ih ⊢
      by_cases ha : a = k
      · simp only [List.filter_cons, ha, beq_self_eq_true, Bool.not_true, Bool.false_eq_true,
          if_false]
        exact ih
      · have ha' : (a == k) = false := by simpa using ha
        simp only [List.filter_cons, ha', Bool.not_false, if_true, List.find?_cons]
        exact ih
    · simp only [hk, if_false] at ih ⊢
      by_cases ha : a = k'
      · have hak : (a == k) = false := by
          simp only [beq_eq_false_iff_ne, ne_eq]
          exact fun h => hk (h.symm.trans ha)
        simp only [List.filter_cons, ha, beq_self_eq_true, Bool.not_true, Bool.false_eq_true,
          if_false, List.find?_cons]
        rw [ih]
        have hak' : (k' == k) = false := by
          simp only [beq_eq_false_iff_ne, ne_eq]
          exact fun h => hk h.symm
        simp [hak']
      · have ha' : (a == k') = false := by simpa using ha
        simp only [List.filter_cons, ha', Bool.not_false, if_true, List.find?_cons]
        by_cases hak : a = k
        · simp [hak]
        · have hak' : (a == k) = false := by simpa using hak
          simp only [hak']
          exact ih

theorem getItem_setItem (storage : Storage) (k k' v : String) :
    getItem (setItem storage k' v) k = if k = k' then some v else getItem storage k := by
  have h := getItem_removeItem storage k k'
  simp only [getItem, setItem, removeItem, List.find?_append] at h ⊢
  by_cases hk : k = k'
  · subst hk
    simp only [if_true] at h ⊢
    have hn : List.find? (fun e => e.1 == k) (List.filter (fun e => !(e.1 == k)) storage)
        = none := Option.map_eq_none'.1 h
    rw [hn]
    simp
  · have hk' : (k' == k) = false := by
      simp only [beq_eq_false_iff_ne, ne_eq]
      exact fun h => hk h.symm
    simp only [hk, if_false] at h ⊢
    rw [← h]
    cases List.find? (fun e => e.1 == k) (List.filter (fun e => !(e.1 == k')) storage) with
    | none => simp [hk']
    | some e => simp

/-! ### Logout -/

/-- C7: from every state, whichever page is active and whatever is stored,
`handleLogout` leaves none of the storage entries `token`, `user_id`,
`username`, sets `currentUser` to `null`, and shows the authentication section
while hiding the application section; the same holds for the click on
`nav-logout`, which is how `handleLogout` is reached. -/
theorem handleLogout_clears_session (s : AppState) :
    (getItem (handleLogout s).localStorage "token" = none ∧
      getItem (handleLogout s).localStorage "user_id" = none ∧
      getItem (handleLogout s).localStorage "username" = none ∧
      (handleLogout s).currentUser = none ∧
      (handleLogout s).authHidden = false ∧
      (handleLogout s).appHidden = true) ∧
    (getItem (handleNavigation NavItem.navLogout s).localStorage "token" = none ∧
      getItem (handleNavigation NavItem.navLogout s).localStorage "user_id" = none ∧
      getItem (handleNavigation NavItem.navLogout s).localStorage "username" = none ∧
      (handleNavigation NavItem.navLogout s).currentUser = none ∧
      (handleNavigation NavItem.navLogout s).authHidden = false ∧
      (handleNavigation NavItem.navLogout s).appHidden = true) := by
  have h : ∀ s : AppState,
      getItem (handleLogout s).localStorage "token" = none ∧
      getItem (handleLogout s).localStorage "user_id" = none ∧
      getItem (handleLogout s).localStorage "username" = none ∧
      (handleLogout s).currentUser = none ∧
      (handleLogout s).authHidden = false ∧
      (handleLogout s).appHidden = true := by
    intro s
    refine ⟨?_, ?_, ?_, rfl, rfl, rfl⟩
    · show getItem (removeItem (removeItem (removeItem s.localStorage "token") "user_id")
        "username") "token" = none
      rw [getItem_removeItem, getItem_removeItem, getItem_removeItem]
      simp
    · show getItem (removeItem (removeItem (removeItem s.localStorage "token") "user_id")
        "username") "user_id" = none
      rw [getItem_removeItem, getItem_removeItem]
      simp
    · show getItem (removeItem (removeItem (removeItem s.localStorage "token") "user_id")
        "username") "username" = none
      rw [getItem_removeItem]
      simp
  exact ⟨h s, h _⟩

/-! ### Login and the view -/

/-- What a successful login does to an arbitrary state: the session and the
three storage entries are set from the reply, every other storage entry is
left as it was, the application section is shown, and the `active` marks of
the pages are left as they were. -/
theorem handleLogin_ok_effect (data : AuthData) (s : AppState) :
    (handleLogin (AuthResponse.ok data) s).currentUser =
      some { token := data.token, user_id := some data.user_id,
             username := some data.username } ∧
    getItem (handleLogin (AuthResponse.ok data) s).localStorage "token" = some data.token ∧
    getItem (handleLogin (AuthResponse.ok data) s).localStorage "user_id" = some data.user_id ∧
    getItem (handleLogin (AuthResponse.ok data) s).localStorage "username"
      = some data.username ∧
    (∀ k, k ≠ "token" → k ≠ "user_id" → k ≠ "username" →
      getItem (handleLogin (AuthResponse.ok data) s).localStorage k
        = getItem s.localStorage k) ∧
    (handleLogin (AuthResponse.ok data) s).authHidden = true ∧
    (handleLogin (AuthResponse.ok data) s).appHidden = false ∧
    (handleLogin (AuthResponse.ok data) s).pageActive = s.pageActive := by
  have hst : (handleLogin (AuthResponse.ok data) s).localStorage =
      setItem (setItem (setItem s.localStorage "token" data.token) "user_id" data.user_id)
        "username" data.username := rfl
  refine ⟨rfl, ?_, ?_, ?_, ?_, rfl, rfl, rfl⟩
  · rw [hst, getItem_setItem, getItem_setItem, getItem_setItem]
    simp
  · rw [hst, getItem_setItem, getItem_setItem]
    simp
  · rw [hst, getItem_setItem]
    simp
  · intro k h1 h2 h3
    rw [hst, getItem_setItem, getItem_setItem, getItem_setItem]
    simp [h1, h2, h3]

/-- C8 (the code departs from the claim): after a login, a click on
`nav-logout` and a second successful login, the view is authenticated and the
three session entries are stored, but the Dashboard page is not active: no
page is. -/
theorem handleLogin_after_logout_no_page :
    (run [Event.login exampleData, Event.navigate NavItem.navLogout] (freshPage [])).appHidden
      = true ∧
    (run [Event.login exampleData, Event.navigate NavItem.navLogout] (freshPage [])).authHidden
      = false ∧
    (run [Event.login exampleData, Event.navigate NavItem.navLogout] (freshPage [])).currentUser
      = none ∧
    (handleLogin (AuthResponse.ok exampleData)
      (run [Event.login exampleData, Event.navigate NavItem.navLogout]
        (freshPage []))).appHidden = false ∧
    (handleLogin (AuthResponse.ok exampleData)
      (run [Event.login exampleData, Event.navigate NavItem.navLogout]
        (freshPage []))).authHidden = true ∧
    (handleLogin (AuthResponse.ok exampleData)
      (run [Event.login exampleData, Event.navigate NavItem.navLogout]
        (freshPage []))).pageActive Page.dashboard = false ∧
    (handleLogin (AuthResponse.ok exampleData)
      (run [Event.login exampleData, Event.navigate NavItem.navLogout]
        (freshPage []))).localStorage =
      [("token", "tok-1"), ("user_id", "7"), ("username", "ann")] := by
  decide

/-- C9 (the code departs from the claim): the state reached from a fresh page
by a login, a click on `nav-logout` and a second login shows the application
section with no page active, although the first login left exactly the
Dashboard page active. -/
theorem view_invariant_fails_after_relogin :
    activePages (run [Event.login exampleData] (freshPage [])) = [Page.dashboard] ∧
    (run [Event.login exampleData, Event.navigate NavItem.navLogout, Event.login exampleData]
      (freshPage [])).appHidden = false ∧
    activePages
      (run [Event.login exampleData, Event.navigate NavItem.navLogout, Event.login exampleData]
        (freshPage [])) = [] := by
  decide

/-! ### Notifications -/

/-- C10 (the code departs from the claim): a notification shown at time 0 and
replaced at time 3000 by a second one is still visible at 4999 and is hidden
at 5000, when the timer of the first call falls due, with no dismissal and no
further call.  The timer of the second call is still pending then (due at
8000): the first timer was not reset and hid the second notification 2000 ms
after it was shown, not 5000 ms. -/
theorem showNotification_hidden_by_earlier_timer :
    (showNotification "second" "success"
      (advanceTo 3000 (showNotification "first" "success" (freshPage [])))).now = 3000 ∧
    (showNotification "second" "success"
      (advanceTo 3000 (showNotification "first" "success" (freshPage [])))).notification.hidden
        = false ∧
    (showNotification "second" "success"
      (advanceTo 3000 (showNotification "first" "success" (freshPage [])))).notification.timers
        = [5000, 8000] ∧
    (advanceTo 4999 (showNotification "second" "success"
      (advanceTo 3000 (showNotification "first" "success" (freshPage []))))).notification.hidden
        = false ∧
    (advanceTo 5000 (showNotification "second" "success"
      (advanceTo 3000 (showNotification "first" "success" (freshPage []))))).notification.message
        = "second" ∧
    (advanceTo 5000 (showNotification "second" "success"
      (advanceTo 3000 (showNotification "first" "success" (freshPage []))))).notification.hidden
        = true ∧
    (advanceTo 5000 (showNotification "second" "success"
      (advanceTo 3000 (showNotification "first" "success" (freshPage []))))).notification.timers
        = [8000] ∧
    5000 < 3000 + 5000 := by
  decide

theorem advanceTo_eq (t : Nat) (s : AppState) :
    advanceTo t s =
      if (s.notification.timers.filter (fun d => decide (d ≤ t))).isEmpty = true then
        { s with now := max s.now t,
                 notification := { s.notification with
                   timers := s.notification.timers.filter (fun d => !decide (d ≤ t)) } }
      else
        hideNotification
          { s with now := max s.now t,
                   notification := { s.notification with
                     timers := s.notification.timers.filter (fun d => !decide (d ≤ t)) } } :=
  rfl

theorem advanceTo_hidden (t : Nat) (s : AppState) :
    (advanceTo t s).notification.hidden =
      (s.notification.hidden || s.notification.timers.any (fun d => decide (d ≤ t))) := by
  rw [advanceTo_eq]
  cases hdue : (s.notification.timers.filter (fun d => decide (d ≤ t))).isEmpty with
  | true =>
    have hnil : s.notification.timers.filter (fun d => decide (d ≤ t)) = [] :=
      List.isEmpty_iff.1 hdue
    have hany : s.notification.timers.any (fun d => decide (d ≤ t)) = false := by
      rw [List.any_eq_false]
      intro d hd hc
      have := List.filter_eq_nil_iff.1 hnil d hd
      exact this hc
    rw [if_pos rfl, hany, Bool.or_false]
  | false =>
    have hany : s.notification.timers.any (fun d => decide (d ≤ t)) = true := by
      rw [List.any_eq_true]
      cases hf : s.notification.timers.filter (fun d => decide (d ≤ t)) with
      | nil => rw [hf] at hdue; exact absurd hdue (by decide)
      | cons d ds =>
        have hd : d ∈ s.notification.timers.filter (fun d => decide (d ≤ t)) := by
          rw [hf]; exact List.mem_cons_self _ _
        exact ⟨d, (List.mem_filter.1 hd).1, (List.mem_filter.1 hd).2⟩
    rw [if_neg (by decide), hany, Bool.or_true]
    rfl

theorem advanceTo_message (t : Nat) (s : AppState) :
    (advanceTo t s).notification.message = s.notification.message := by
  rw [advanceTo_eq]
  cases (s.notification.timers.filter (fun d => decide (d ≤ t))).isEmpty with
  | true => rw [if_pos rfl]
  | false => rw [if_neg (by decide)]; rfl

/-- What `showNotification` does to the notification and the timers: it
replaces the message, shows the notification and adds a timer due 5000 ms
later to the pending ones, cancelling none.  Hence, with no dismissal and no
further call, the notification is visible at every time before `now + 5000`
that precedes all timers pending from earlier calls, it is hidden from
`now + 5000` on, and it is hidden once a timer pending from an earlier call has
fallen due. -/
theorem showNotification_visible_until_first_timer (message type : String) (s : AppState) :
    (showNotification message type s).notification.message = message ∧
    (showNotification message type s).notification.hidden = false ∧
    (showNotification message type s).notification.timers
      = s.notification.timers ++ [s.now + 5000] ∧
    (∀ t, t < s.now + 5000 → (∀ d ∈ s.notification.timers, t < d) →
      (advanceTo t (showNotification message type s)).notification.hidden = false ∧
      (advanceTo t (showNotification message type s)).notification.message = message) ∧
    (∀ t, s.now + 5000 ≤ t →
      (advanceTo t (showNotification message type s)).notification.hidden = true) ∧
    (∀ t, (∃ d ∈ s.notification.timers, d ≤ t) →
      (advanceTo t (showNotification message type s)).notification.hidden = true) := by
  refine ⟨rfl, rfl, rfl, ?_, ?_, ?_⟩
  · intro t ht hpending
    refine ⟨?_, by rw [advanceTo_message]; rfl⟩
    rw [advanceTo_hidden]
    simp only [showNotification, Bool.false_or, List.any_eq_false, List.mem_append,
      List.mem_singleton, decide_eq_true_eq]
    intro d hd
    rcases hd with hd | hd
    · have := hpending d hd
      omega
    · omega
  · intro t ht
    rw [advanceTo_hidden]
    simp only [showNotification, Bool.false_or, List.any_eq_true, List.mem_append,
      List.mem_singleton, decide_eq_true_eq]
    exact ⟨s.now + 5000, Or.inr rfl, ht⟩
  · intro t hex
    obtain ⟨d, hd, hdt⟩ := hex
    rw [advanceTo_hidden]
    simp only [showNotification, Bool.false_or, List.any_eq_true, List.mem_append,
      List.mem_singleton, decide_eq_true_eq]
    exact ⟨d, Or.inl hd, hdt⟩

/-- The behaviour of the timers on a fresh page (no timer pending): a
notification shown at time 0 is visible at 4999 and hidden at 5000; shown again
at 3000 it is hidden at 5000 by the first timer. -/
theorem showNotification_visible_until_first_timer_witness :
    ((advanceTo 4999 (showNotification "saved" "success" (freshPage []))).notification.hidden
        = false ∧
      (advanceTo 4999 (showNotification "saved" "success" (freshPage []))).notification.message
        = "saved") ∧
    (advanceTo 5000 (showNotification "saved" "success" (freshPage []))).notification.hidden
      = true ∧
    (advanceTo 5000 (showNotification "second" "success"
      (advanceTo 3000 (showNotification "first" "success" (freshPage []))))).notification.hidden
        = true :=
  ⟨(showNotification_visible_until_first_timer "saved" "success" (freshPage [])).2.2.2.1
      4999 (by decide) (by decide),
   (showNotification_visible_until_first_timer "saved" "success" (freshPage [])).2.2.2.2.1
      5000 (by decide),
   (showNotification_visible_until_first_timer "second" "success"
      (advanceTo 3000 (showNotification "first" "success" (freshPage [])))).2.2.2.2.2
      5000 ⟨5000, by decide, by decide⟩⟩

/-! ### The session across a reload -/

theorem getItem_signedIn (data : AuthData) (storage : Storage) :
    getItem (setItem (setItem (setItem storage "token" data.token) "user_id" data.user_id)
      "username" data.username) "token" = some data.token ∧
    getItem (setItem (setItem (setItem storage "token" data.token) "user_id" data.user_id)
      "username" data.username) "user_id" = some data.user_id ∧
    getItem (setItem (setItem (setItem storage "token" data.token) "user_id" data.user_id)
      "username" data.username) "username" = some data.username := by
  refine ⟨?_, ?_, ?_⟩
  · rw [getItem_setItem, getItem_setItem, getItem_setItem]
    simp
  · rw [getItem_setItem, getItem_setItem]
    simp
  · rw [getItem_setItem]
    simp

/-- With a non-empty token in storage `initializeApp` rebuilds the session from
the three entries and shows the application section. -/
theorem initializeApp_of_token (p : AppState) (token : String)
    (h : getItem p.localStorage "token" = some token) (hne : token ≠ "") :
    (initializeApp p).currentUser =
      some { token := token, user_id := getItem p.localStorage "user_id",
             username := getItem p.localStorage "username" } ∧
    (initializeApp p).authHidden = true ∧ (initializeApp p).appHidden = false := by
  unfold initializeApp
  rw [h]
  simp only [hne, ne_eq, not_false_eq_true, if_true]
  exact ⟨rfl, rfl, rfl⟩

/-- Without a token in storage `initializeApp` keeps `currentUser` and shows the
authentication section. -/
theorem initializeApp_of_no_token (p : AppState) (h : getItem p.localStorage "token" = none) :
    (initializeApp p).currentUser = p.currentUser ∧
    (initializeApp p).authHidden = false ∧ (initializeApp p).appHidden = true := by
  unfold initializeApp
  rw [h]
  exact ⟨rfl, rfl, rfl⟩

/-- C11: after a successful login or registration whose token is not empty,
`initializeApp` run on a page that holds the storage left by it rebuilds a
session with the token, user id and user name of the reply and shows the
authenticated view; on a page whose storage holds no token (as it is when
nobody logged in, and after a logout) `initializeApp` leaves the session
`null` and shows the unauthenticated view. -/
theorem session_survives_reload (data : AuthData) (s : AppState) (htoken : data.token ≠ "") :
    (∀ p : AppState,
      (p.localStorage = (handleLogin (AuthResponse.ok data) s).localStorage ∨
        p.localStorage = (handleRegister (AuthResponse.ok data) s).localStorage) →
      (initializeApp p).currentUser =
          some { token := data.token, user_id := some data.user_id,
                 username := some data.username } ∧
        (initializeApp p).authHidden = true ∧ (initializeApp p).appHidden = false) ∧
    (∀ p : AppState, getItem p.localStorage "token" = none → p.currentUser = none →
      (initializeApp p).currentUser = none ∧
        (initializeApp p).authHidden = false ∧ (initializeApp p).appHidden = true) ∧
    getItem ([] : Storage) "token" = none ∧
    getItem (handleLogout s).localStorage "token" = none := by
  refine ⟨?_, ?_, rfl, ?_⟩
  · intro p hp
    have hst : p.localStorage =
        setItem (setItem (setItem s.localStorage "token" data.token) "user_id" data.user_id)
          "username" data.username := by
      rcases hp with hp | hp
      · exact hp
      · exact hp
    obtain ⟨h1, h2, h3⟩ := getItem_signedIn data s.localStorage
    rw [← hst] at h1 h2 h3
    have h := initializeApp_of_token p data.token h1 htoken
    rw [h2, h3] at h
    exact h
  · intro p hp hnone
    have h := initializeApp_of_no_token p hp
    rw [hnone] at h
    exact h
  · show getItem (removeItem (removeItem (removeItem s.localStorage "token") "user_id")
      "username") "token" = none
    rw [getItem_removeItem, getItem_removeItem, getItem_removeItem]
    simp

/-- Witness for C11: the example reply on a fresh page, then a reload of the
page with the storage the login left; and a reload after a logout. -/
theorem session_survives_reload_witness :
    ((freshPage (handleLogin (AuthResponse.ok exampleData) (freshPage [])).localStorage).currentUser
        = some { token := "tok-1", user_id := some "7", username := some "ann" } ∧
      (freshPage (handleLogin (AuthResponse.ok exampleData) (freshPage [])).localStorage).authHidden
        = true ∧
      (freshPage (handleLogin (AuthResponse.ok exampleData) (freshPage [])).localStorage).appHidden
        = false) ∧
    ((freshPage (handleLogout (handleLogin (AuthResponse.ok exampleData)
        (freshPage []))).localStorage).currentUser = none ∧
      (freshPage (handleLogout (handleLogin (AuthResponse.ok exampleData)
        (freshPage []))).localStorage).authHidden = false ∧
      (freshPage (handleLogout (handleLogin (AuthResponse.ok exampleData)
        (freshPage []))).localStorage).appHidden = true) :=
  ⟨(session_survives_reload exampleData (freshPage []) (by decide)).1
      { now := 0, currentUser := none,
        localStorage := (handleLogin (AuthResponse.ok exampleData) (freshPage [])).localStorage,
        authHidden := false, appHidden := true, loadingHidden := true,
        pageActive := fun q => decide (q = Page.dashboard),
        navActive := fun n => decide (n = NavItem.navDashboard),
        notification := { message := "", className := "notification hidden", hidden := true,
                          timers := [] },
        requests := [] }
      (Or.inl rfl),
   (session_survives_reload exampleData (freshPage []) (by decide)).2.1
      { now := 0, currentUser := none,
        localStorage := (handleLogout (handleLogin (AuthResponse.ok exampleData)
          (freshPage []))).localStorage,
        authHidden := false, appHidden := true, loadingHidden := true,
        pageActive := fun q => decide (q = Page.dashboard),
        navActive := fun n => decide (n = NavItem.navDashboard),
        notification := { message := "", className := "notification hidden", hidden := true,
                          timers := [] },
        requests := [] }
      (by decide) rfl⟩

/-! ### Conservation in the time series -/

theorem seriesOf_eq_map (g : Grouped) (f : Bucket → ℚ) (h : String → ℚ) (dates : List String)
    (hkeys : ∀ d ∈ dates, d ∈ g.map Prod.fst) (hval : ∀ d b, (d, b) ∈ g → f b = h d) :
    seriesOf g f dates = some (dates.map h) := by
  induction dates with
  | nil => rfl
  | cons date rest ih =>
    obtain ⟨b, hb, hbmem⟩ := getOwn_of_mem_keys g date (hkeys date (List.mem_cons_self _ _))
    have hrest := ih (fun d hd => hkeys d (List.mem_cons_of_mem _ hd))
    simp only [seriesOf, hb, hrest, List.map_cons, hval date b hbmem]

/-- Splitting the transactions that satisfy `p` by date and adding up the parts
gives their total, when every date is listed exactly once. -/
theorem sum_by_date (L : List String) (hL : L.Nodup) (txs : List Transaction)
    (p : Transaction → Prop) [DecidablePred p] (h : ∀ t ∈ txs, t.date ∈ L) :
    (L.map (fun d =>
      ((txs.filter (fun t => t.date = d ∧ p t)).map (fun t => t.amount)).sum)).sum =
      ((txs.filter (fun t => p t)).map (fun t => t.amount)).sum := by
  induction txs with
  | nil => simp
  | cons t rest ih =>
    have hrest : ∀ t ∈ rest, t.date ∈ L := fun t ht => h t (List.mem_cons_of_mem _ ht)
    have ht : t.date ∈ L := h t (List.mem_cons_self _ _)
    by_cases hp : p t
    · have hsplit : ∀ d : String,
          (((t :: rest).filter (fun t => t.date = d ∧ p t)).map (fun t => t.amount)).sum =
            (if t.date = d then t.amount else 0) +
              ((rest.filter (fun t => t.date = d ∧ p t)).map (fun t => t.amount)).sum := by
        intro d
        by_cases hd : t.date = d
        · simp [List.filter_cons, hd, hp]
        · simp [List.filter_cons, hd]
      simp only [hsplit]
      rw [List.sum_map_add, ih hrest, sum_single_name L hL t.date ht t.amount]
      simp [List.filter_cons, hp]
    · have hsplit : ∀ d : String,
          (((t :: rest).filter (fun t => t.date = d ∧ p t)).map (fun t => t.amount)).sum =
            ((rest.filter (fun t => t.date = d ∧ p t)).map (fun t => t.amount)).sum := by
        intro d
        simp [List.filter_cons, hp]
      simp only [hsplit]
      rw [ih hrest]
      simp [List.filter_cons, hp]

theorem sum_income_add_other (txs : List Transaction) :
    ((txs.filter (fun t => t.type = "income")).map (fun t => t.amount)).sum +
      ((txs.filter (fun t => t.type ≠ "income")).map (fun t => t.amount)).sum =
      (txs.map (fun t => t.amount)).sum := by
  induction txs with
  | nil => simp
  | cons t rest ih =>
    by_cases hp : t.type = "income"
    · simp only [List.filter_cons, hp, decide_True, if_true, ne_eq, not_true_eq_false,
        decide_False, Bool.false_eq_true, if_false, List.map_cons, List.sum_cons]
      rw [add_assoc]
      exact congrArg _ ih
    · simp only [List.filter_cons, hp, decide_False, Bool.false_eq_true, if_false, ne_eq,
        not_false_eq_true, decide_True, if_true, List.map_cons, List.sum_cons]
      rw [add_left_comm]
      exact congrArg _ ih

/-- C12: whatever the type strings are, every transaction is counted in one
series of the one bucket of its date: the income value of a label is the sum of
the `income` transactions of that date and the expense value the sum of all
its other transactions, each date of the input is one label, the two series
together add up to the sum of all amounts, and the income series adds up to
the total of the `income` transactions.  Dates are calendar date strings, so
none of them is a property name that an empty object inherits. -/
theorem updateMonthlyChart_conservation (inherited : String → Bool)
    (transactions : List Transaction)
    (hdate : ∀ t ∈ transactions, inherited t.date = false) :
    ∃ chart, updateMonthlyChart true inherited transactions = some chart ∧
      chart.incomeData = chart.labels.map (fun d =>
        ((transactions.filter (fun t => t.date = d ∧ t.type = "income")).map
          (fun t => t.amount)).sum) ∧
      chart.expenseData = chart.labels.map (fun d =>
        ((transactions.filter (fun t => t.date = d ∧ t.type ≠ "income")).map
          (fun t => t.amount)).sum) ∧
      (∀ t ∈ transactions, chart.labels.count t.date = 1) ∧
      chart.incomeData.sum + chart.expenseData.sum
        = (transactions.map (fun t => t.amount)).sum ∧
      chart.incomeData.sum
        = ((transactions.filter (fun t => t.type = "income")).map (fun t => t.amount)).sum := by
  obtain ⟨hnd, hmem, hval⟩ := groupedFor_foldl inherited transactions hdate
  have hperm := sortKeys_perm ((transactions.foldl (groupStep inherited) []).map Prod.fst)
  have hsub : ∀ d ∈ sortKeys ((transactions.foldl (groupStep inherited) []).map Prod.fst),
      d ∈ (transactions.foldl (groupStep inherited) []).map Prod.fst :=
    fun d hd => hperm.mem_iff.1 hd
  have hnd' : (sortKeys ((transactions.foldl (groupStep inherited) []).map Prod.fst)).Nodup :=
    hperm.nodup_iff.2 hnd
  have hcover : ∀ t ∈ transactions,
      t.date ∈ sortKeys ((transactions.foldl (groupStep inherited) []).map Prod.fst) :=
    fun t ht => hperm.mem_iff.2 ((hmem t.date).2 ⟨t, ht, rfl⟩)
  have hvi := seriesOf_eq_map (transactions.foldl (groupStep inherited) [])
    (fun b => b.income) (incomeTotalOn transactions) _ hsub (fun d b hb => (hval d b hb).1)
  have hve := seriesOf_eq_map (transactions.foldl (groupStep inherited) [])
    (fun b => b.expense) (otherTotalOn transactions) _ hsub (fun d b hb => (hval d b hb).2)
  have hsi := sum_by_date _ hnd' transactions (fun t => t.type = "income") hcover
  have hse := sum_by_date _ hnd' transactions (fun t => t.type ≠ "income") hcover
  refine ⟨{ labels := sortKeys ((transactions.foldl (groupStep inherited) []).map Prod.fst),
            incomeData := (sortKeys ((transactions.foldl (groupStep inherited) []).map
              Prod.fst)).map (incomeTotalOn transactions),
            expenseData := (sortKeys ((transactions.foldl (groupStep inherited) []).map
              Prod.fst)).map (otherTotalOn transactions) }, ?_, rfl, rfl, ?_, ?_, ?_⟩
  · simp only [updateMonthlyChart, Bool.not_true, Bool.false_eq_true, if_false, hvi, hve]
  · intro t ht
    exact List.count_eq_one_of_mem hnd' (hcover t ht)
  · show ((sortKeys _).map (incomeTotalOn transactions)).sum +
      ((sortKeys _).map (otherTotalOn transactions)).sum = _
    unfold incomeTotalOn otherTotalOn
    rw [hsi, hse]
    exact sum_income_add_other transactions
  · show ((sortKeys _).map (incomeTotalOn transactions)).sum = _
    unfold incomeTotalOn
    exact hsi

/-- Witness for C12: three transactions, one of type "refund". -/
theorem updateMonthlyChart_conservation_witness :
    ∃ chart, updateMonthlyChart true inheritedName exampleTypedTransactions = some chart ∧
      (∀ t ∈ exampleTypedTransactions, chart.labels.count t.date = 1) ∧
      chart.incomeData.sum + chart.expenseData.sum
        = (exampleTypedTransactions.map (fun t => t.amount)).sum ∧
      chart.incomeData.sum
        = ((exampleTypedTransactions.filter (fun t => t.type = "income")).map
            (fun t => t.amount)).sum :=
  (updateMonthlyChart_conservation inheritedName exampleTypedTransactions (by decide)).imp
    (fun _ h => ⟨h.1, h.2.2.2.1, h.2.2.2.2.1, h.2.2.2.2.2⟩)

end FinanceTracker
